import Mathlib

/-!
A shallow embedding of the hs_spi SPI transport library (src/hs_spi.c) and a
verification of its segmentation, chip-select, buffer and state-handling
properties.

The handle `struct _hs_spi` becomes the structure `HsSpi`; a possibly-NULL
handle or buffer pointer becomes an `Option`.  The external world (results of
the `ioctl` native transfer calls, the bytes clocked in by the device, and the
success of `malloc`) is an explicit environment `SpiEnv`.  Each public C
function becomes a Lean function returning its result code together with the
final handle state and a trace of the observable events it performed (locking,
the descriptor check, chip-select callback calls, scratch allocations and the
native `SPI_IOC_MESSAGE` calls with their transfer-descriptor arrays).  The
segmentation `while` loops are translated with an explicit fuel argument equal
to the initial remaining length; exhausting the fuel (which happens exactly
when `max_transfer_len = 0`, where the C loop does not terminate) yields
`none`.
-/

/-- Symbolic value of a `tx_buf`/`rx_buf` pointer in a native transfer
descriptor: NULL, a caller buffer at an offset, the one-byte register address,
or a full-duplex scratch buffer at an offset. -/
inductive BufPtr where
  | null : BufPtr
  | wr : Nat → BufPtr
  | rd : Nat → BufPtr
  | regAddr : Nat → BufPtr
  | tx : Nat → BufPtr
  | rx : Nat → BufPtr
deriving DecidableEq, Inhabited

/-- One element of a `struct spi_ioc_transfer` array as filled in by the
source: the two buffer pointers, the byte length and the `cs_change` flag. -/
structure SpiPart where
  tx_buf : BufPtr := BufPtr.null
  rx_buf : BufPtr := BufPtr.null
  len : Nat := 0
  cs_change : Nat := 0
deriving DecidableEq, Inhabited

/-- Observable events of one public operation, in program order. -/
inductive SpiEvent where
  | lock : SpiEvent
  | unlock : SpiEvent
  | fdCheck : SpiEvent
  | cs : Bool → Bool → SpiEvent
  | allocTx : Bool → SpiEvent
  | allocRx : Bool → SpiEvent
  | ioctl : List SpiPart → SpiEvent
  | openDev : Int → SpiEvent
  | closeDev : Int → SpiEvent
  | cfg : Nat → Int → SpiEvent
deriving DecidableEq, Inhabited

/-- The handle `struct _hs_spi`: descriptor (`-1` when closed), optional
chip-select callback, and the per-call transfer length limit.  The mutex is
not a value; locking shows up as `lock`/`unlock` trace events. -/
structure HsSpi where
  fd : Int
  cs_control_cb : Option (Bool → Int)
  max_transfer_len : Nat
deriving Inhabited

/-- Environment of one transfer operation: result of the n-th `ioctl`
native-transfer call, the byte the device clocks out at data position i, and
whether the n-th `malloc` succeeds. -/
structure SpiEnv where
  ioctlRet : Nat → Int
  rxByte : Nat → Nat
  mallocOk : Nat → Bool
deriving Inhabited

/-- Result of one public transfer operation: the C return code, the event
trace, the handle state at return (`none` when the handle was NULL), the
bytes stored into the caller's read buffer, and the contents of the
transmit scratch buffer for the full-duplex operations. -/
structure SpiRes where
  ret : Int
  events : List SpiEvent
  state : Option HsSpi
  readOut : Option (List Nat) := none
  txWire : Option (List Nat) := none
deriving Inhabited

/-- Translation of the static helper `hs_spi_cs_control` (hs_spi.c:42): call
the callback when one is configured, otherwise succeed with 0.  The returned
event records the requested level and whether a callback was actually
invoked. -/
def hs_spi_cs_control (st : HsSpi) (enable : Bool) : Int × SpiEvent :=
  match st.cs_control_cb with
  | some cb => (cb enable, SpiEvent.cs enable true)
  | none => (0, SpiEvent.cs enable false)

/-- Translation of `hs_spi_create` (hs_spi.c:57): descriptor invalid, no
callback, chunk size 0 (meaning "use the default on init"). -/
def hs_spi_create : HsSpi :=
  { fd := -1, cs_control_cb := none, max_transfer_len := 0 }

/-- The (offset, length) pairs produced by the shared segmentation loop of
hs_spi.c: starting from `remain` bytes left of a `total`-byte payload, each
iteration takes `current = min remain maxLen` bytes at offset
`total - remain`.  `fuel` bounds the number of iterations; every caller
passes `fuel = remain`, which suffices whenever `maxLen ≥ 1`. -/
def chunkPairs (total maxLen : Nat) : Nat → Nat → List (Nat × Nat)
  | _, 0 => []
  | 0, _ + 1 => []
  | fuel + 1, r + 1 =>
    let remain := r + 1
    let current := min remain maxLen
    (total - remain, current) :: chunkPairs total maxLen fuel (remain - current)

/-- Checks that a list of (offset, length) pairs, read from position `off`,
consists of consecutive segments of length between 1 and `C` that end exactly
at `L`: no gaps, no overlaps, full coverage of `[off, L)`. -/
def segsOkB (L C : Nat) : Nat → List (Nat × Nat) → Bool
  | off, [] => off == L
  | off, (o, l) :: rest =>
    o == off && decide (1 ≤ l) && decide (l ≤ C) && segsOkB L C (off + l) rest

/-- The `while (remain_data_len > 0)` loop of `hs_spi_write_data`
(hs_spi.c:251): one single-part native call per chunk, transmitting from
`&write_data[data_offset]`.  Returns the events, the final value of
`remain_data_len`, and `false` when some `ioctl` returned a negative value
(the loop then stops at that call). -/
def hs_spi_write_data_loop (maxLen total : Nat) (f : Nat → Int) :
    Nat → Nat → Nat → Option (List SpiEvent × Nat × Bool)
  | _, 0, _ => some ([], 0, true)
  | 0, _ + 1, _ => none
  | fuel + 1, r + 1, idx =>
    let remain := r + 1
    let current := min remain maxLen
    let data_offset := total - remain
    let part : SpiPart := { tx_buf := BufPtr.wr data_offset, len := current }
    if f idx < 0 then
      some ([SpiEvent.ioctl [part]], remain, false)
    else
      match hs_spi_write_data_loop maxLen total f fuel (remain - current) (idx + 1) with
      | none => none
      | some (evs, rem, ok) => some (SpiEvent.ioctl [part] :: evs, rem, ok)

/-- Translation of `hs_spi_write_data` (hs_spi.c:217). -/
def hs_spi_write_data (h : Option HsSpi) (write_data : Option (List Nat))
    (write_data_len : Nat) (env : SpiEnv) : Option SpiRes :=
  match h with
  | none => some { ret := -1, events := [], state := none }
  | some st =>
  match write_data with
  | none => some { ret := -2, events := [], state := some st }
  | some _ =>
  if write_data_len = 0 then
    some { ret := -3, events := [], state := some st }
  else if st.fd < 0 then
    some { ret := -4, events := [SpiEvent.lock, SpiEvent.fdCheck, SpiEvent.unlock],
           state := some st }
  else
    let csA := hs_spi_cs_control st true
    if csA.1 < 0 then
      some { ret := -5, events := [SpiEvent.lock, SpiEvent.fdCheck, csA.2, SpiEvent.unlock],
             state := some st }
    else
      match hs_spi_write_data_loop st.max_transfer_len write_data_len env.ioctlRet
          write_data_len write_data_len 0 with
      | none => none
      | some (evs, rem, ok) =>
        let csD := hs_spi_cs_control st false
        let allEvs := SpiEvent.lock :: SpiEvent.fdCheck :: csA.2 ::
          (evs ++ [csD.2, SpiEvent.unlock])
        if ok = false then
          some { ret := -6, events := allEvs, state := some st }
        else if rem ≠ 0 then
          some { ret := -7, events := allEvs, state := some st }
        else
          some { ret := 0, events := allEvs, state := some st }

/-- The `while (remain_data_len > 0)` loop of `hs_spi_read_data`
(hs_spi.c:322): one single-part native call per chunk, receiving into
`&read_data[data_offset]`.  Also returns the bytes the device stored into the
caller's buffer (`g i` is the byte for data position `i`). -/
def hs_spi_read_data_loop (maxLen total : Nat) (f : Nat → Int) (g : Nat → Nat) :
    Nat → Nat → Nat → Option (List SpiEvent × Nat × Bool × List Nat)
  | _, 0, _ => some ([], 0, true, [])
  | 0, _ + 1, _ => none
  | fuel + 1, r + 1, idx =>
    let remain := r + 1
    let current := min remain maxLen
    let data_offset := total - remain
    let part : SpiPart := { rx_buf := BufPtr.rd data_offset, len := current }
    if f idx < 0 then
      some ([SpiEvent.ioctl [part]], remain, false, [])
    else
      match hs_spi_read_data_loop maxLen total f g fuel (remain - current) (idx + 1) with
      | none => none
      | some (evs, rem, ok, acc) =>
        some (SpiEvent.ioctl [part] :: evs, rem, ok,
          (List.range current).map (fun i => g (data_offset + i)) ++ acc)

/-- Translation of `hs_spi_read_data` (hs_spi.c:288).  `readOut` is the list
of bytes the operation stored into the caller's buffer. -/
def hs_spi_read_data (h : Option HsSpi) (read_data : Option (List Nat))
    (read_data_len : Nat) (env : SpiEnv) : Option SpiRes :=
  match h with
  | none => some { ret := -1, events := [], state := none }
  | some st =>
  match read_data with
  | none => some { ret := -2, events := [], state := some st }
  | some _ =>
  if read_data_len = 0 then
    some { ret := -3, events := [], state := some st }
  else if st.fd < 0 then
    some { ret := -4, events := [SpiEvent.lock, SpiEvent.fdCheck, SpiEvent.unlock],
           state := some st }
  else
    let csA := hs_spi_cs_control st true
    if csA.1 < 0 then
      some { ret := -5, events := [SpiEvent.lock, SpiEvent.fdCheck, csA.2, SpiEvent.unlock],
             state := some st }
    else
      match hs_spi_read_data_loop st.max_transfer_len read_data_len env.ioctlRet env.rxByte
          read_data_len read_data_len 0 with
      | none => none
      | some (evs, rem, ok, acc) =>
        let csD := hs_spi_cs_control st false
        let allEvs := SpiEvent.lock :: SpiEvent.fdCheck :: csA.2 ::
          (evs ++ [csD.2, SpiEvent.unlock])
        if ok = false then
          some { ret := -6, events := allEvs, state := some st, readOut := some acc }
        else if rem ≠ 0 then
          some { ret := -7, events := allEvs, state := some st, readOut := some acc }
        else
          some { ret := 0, events := allEvs, state := some st, readOut := some acc }

/-- List translation of `memcpy(dst, src, n)` on byte buffers: the first `n`
bytes come from `src`, the rest keep the contents of `dst`. -/
def memcpyList (dst src : List Nat) (n : Nat) : List Nat :=
  src.take n ++ dst.drop n

/-- The transfer loop of `hs_spi_write_read_data` (hs_spi.c:428): one
single-part native call per chunk, transmitting from the tx scratch buffer
and receiving into the rx scratch buffer at the same offset.  Also returns
the bytes accumulated in the rx scratch buffer. -/
def hs_spi_write_read_data_loop (maxLen total : Nat) (f : Nat → Int) (g : Nat → Nat) :
    Nat → Nat → Nat → Option (List SpiEvent × Nat × Bool × List Nat)
  | _, 0, _ => some ([], 0, true, [])
  | 0, _ + 1, _ => none
  | fuel + 1, r + 1, idx =>
    let remain := r + 1
    let current := min remain maxLen
    let data_offset := total - remain
    let part : SpiPart :=
      { tx_buf := BufPtr.tx data_offset, rx_buf := BufPtr.rx data_offset, len := current }
    if f idx < 0 then
      some ([SpiEvent.ioctl [part]], remain, false, [])
    else
      match hs_spi_write_read_data_loop maxLen total f g fuel (remain - current) (idx + 1) with
      | none => none
      | some (evs, rem, ok, acc) =>
        some (SpiEvent.ioctl [part] :: evs, rem, ok,
          (List.range current).map (fun i => g (data_offset + i)) ++ acc)

/-- Translation of `hs_spi_write_read_data` (hs_spi.c:359): full-duplex
transfer over `max write_data_len read_data_len` bytes through zero-filled
scratch buffers; on success the first `read_data_len` received bytes are
copied out to the caller. -/
def hs_spi_write_read_data (h : Option HsSpi) (write_data : Option (List Nat))
    (write_data_len : Nat) (read_data : Option (List Nat)) (read_data_len : Nat)
    (env : SpiEnv) : Option SpiRes :=
  match h with
  | none => some { ret := -1, events := [], state := none }
  | some st =>
  match write_data with
  | none => some { ret := -2, events := [], state := some st }
  | some wd =>
  if write_data_len = 0 then
    some { ret := -3, events := [], state := some st }
  else
  match read_data with
  | none => some { ret := -4, events := [], state := some st }
  | some _ =>
  if read_data_len = 0 then
    some { ret := -5, events := [], state := some st }
  else if st.fd < 0 then
    some { ret := -6, events := [SpiEvent.lock, SpiEvent.fdCheck, SpiEvent.unlock],
           state := some st }
  else
    let transfer_len := max write_data_len read_data_len
    if env.mallocOk 0 = false then
      some { ret := -7,
             events := [SpiEvent.lock, SpiEvent.fdCheck, SpiEvent.allocTx false,
               SpiEvent.unlock],
             state := some st }
    else
      let txData := memcpyList (List.replicate transfer_len 0) wd write_data_len
      if env.mallocOk 1 = false then
        some { ret := -8,
               events := [SpiEvent.lock, SpiEvent.fdCheck, SpiEvent.allocTx true,
                 SpiEvent.allocRx false, SpiEvent.unlock],
               state := some st, txWire := some txData }
      else
        let csA := hs_spi_cs_control st true
        if csA.1 < 0 then
          some { ret := -9,
                 events := [SpiEvent.lock, SpiEvent.fdCheck, SpiEvent.allocTx true,
                   SpiEvent.allocRx true, csA.2, SpiEvent.unlock],
                 state := some st, txWire := some txData }
        else
          match hs_spi_write_read_data_loop st.max_transfer_len transfer_len env.ioctlRet
              env.rxByte transfer_len transfer_len 0 with
          | none => none
          | some (evs, rem, ok, acc) =>
            let csD := hs_spi_cs_control st false
            let allEvs := SpiEvent.lock :: SpiEvent.fdCheck :: SpiEvent.allocTx true ::
              SpiEvent.allocRx true :: csA.2 :: (evs ++ [csD.2, SpiEvent.unlock])
            if ok = false then
              some { ret := -10, events := allEvs, state := some st, txWire := some txData }
            else if rem ≠ 0 then
              some { ret := -11, events := allEvs, state := some st, txWire := some txData }
            else
              some { ret := 0, events := allEvs, state := some st,
                     readOut := some (acc.take read_data_len), txWire := some txData }

/-- The transfer loop of `hs_spi_write_data_sub` (hs_spi.c:513): the chunk
with `remain = total` (the first one) is sent as a two-part native call whose
first part is the one-byte register address; every other chunk is a one-part
call carrying only data. -/
def hs_spi_write_data_sub_loop (maxLen total reg : Nat) (f : Nat → Int) :
    Nat → Nat → Nat → Option (List SpiEvent × Nat × Bool)
  | _, 0, _ => some ([], 0, true)
  | 0, _ + 1, _ => none
  | fuel + 1, r + 1, idx =>
    let remain := r + 1
    let current := min remain maxLen
    let data_offset := total - remain
    let parts : List SpiPart :=
      if remain = total then
        [{ tx_buf := BufPtr.regAddr reg, len := 1 },
         { tx_buf := BufPtr.wr data_offset, len := current }]
      else
        [{ tx_buf := BufPtr.wr data_offset, len := current }]
    if f idx < 0 then
      some ([SpiEvent.ioctl parts], remain, false)
    else
      match hs_spi_write_data_sub_loop maxLen total reg f fuel (remain - current) (idx + 1) with
      | none => none
      | some (evs, rem, ok) => some (SpiEvent.ioctl parts :: evs, rem, ok)

/-- Translation of `hs_spi_write_data_sub` (hs_spi.c:473). -/
def hs_spi_write_data_sub (h : Option HsSpi) (reg_addr : Nat)
    (write_data : Option (List Nat)) (write_data_len : Nat) (env : SpiEnv) :
    Option SpiRes :=
  match h with
  | none => some { ret := -1, events := [], state := none }
  | some st =>
  match write_data with
  | none => some { ret := -2, events := [], state := some st }
  | some _ =>
  if write_data_len = 0 then
    some { ret := -3, events := [], state := some st }
  else if st.fd < 0 then
    some { ret := -4, events := [SpiEvent.lock, SpiEvent.fdCheck, SpiEvent.unlock],
           state := some st }
  else
    let csA := hs_spi_cs_control st true
    if csA.1 < 0 then
      some { ret := -5, events := [SpiEvent.lock, SpiEvent.fdCheck, csA.2, SpiEvent.unlock],
             state := some st }
    else
      match hs_spi_write_data_sub_loop st.max_transfer_len write_data_len reg_addr
          env.ioctlRet write_data_len write_data_len 0 with
      | none => none
      | some (evs, rem, ok) =>
        let csD := hs_spi_cs_control st false
        let allEvs := SpiEvent.lock :: SpiEvent.fdCheck :: csA.2 ::
          (evs ++ [csD.2, SpiEvent.unlock])
        if ok = false then
          some { ret := -6, events := allEvs, state := some st }
        else if rem ≠ 0 then
          some { ret := -7, events := allEvs, state := some st }
        else
          some { ret := 0, events := allEvs, state := some st }

/-- The transfer loop of `hs_spi_read_data_sub` (hs_spi.c:606): the first
chunk (`remain = total`) is a two-part call (register address, then a
receive-only data part); later chunks are one-part receive calls. -/
def hs_spi_read_data_sub_loop (maxLen total reg : Nat) (f : Nat → Int) (g : Nat → Nat) :
    Nat → Nat → Nat → Option (List SpiEvent × Nat × Bool × List Nat)
  | _, 0, _ => some ([], 0, true, [])
  | 0, _ + 1, _ => none
  | fuel + 1, r + 1, idx =>
    let remain := r + 1
    let current := min remain maxLen
    let data_offset := total - remain
    let parts : List SpiPart :=
      if remain = total then
        [{ tx_buf := BufPtr.regAddr reg, len := 1 },
         { rx_buf := BufPtr.rd data_offset, len := current }]
      else
        [{ rx_buf := BufPtr.rd data_offset, len := current }]
    if f idx < 0 then
      some ([SpiEvent.ioctl parts], remain, false, [])
    else
      match hs_spi_read_data_sub_loop maxLen total reg f g fuel (remain - current) (idx + 1) with
      | none => none
      | some (evs, rem, ok, acc) =>
        some (SpiEvent.ioctl parts :: evs, rem, ok,
          (List.range current).map (fun i => g (data_offset + i)) ++ acc)

/-- Translation of `hs_spi_read_data_sub` (hs_spi.c:567). -/
def hs_spi_read_data_sub (h : Option HsSpi) (reg_addr : Nat)
    (rad_data : Option (List Nat)) (read_data_len : Nat) (env : SpiEnv) :
    Option SpiRes :=
  match h with
  | none => some { ret := -1, events := [], state := none }
  | some st =>
  match rad_data with
  | none => some { ret := -2, events := [], state := some st }
  | some _ =>
  if read_data_len = 0 then
    some { ret := -3, events := [], state := some st }
  else if st.fd < 0 then
    some { ret := -4, events := [SpiEvent.lock, SpiEvent.fdCheck, SpiEvent.unlock],
           state := some st }
  else
    let csA := hs_spi_cs_control st true
    if csA.1 < 0 then
      some { ret := -5, events := [SpiEvent.lock, SpiEvent.fdCheck, csA.2, SpiEvent.unlock],
             state := some st }
    else
      match hs_spi_read_data_sub_loop st.max_transfer_len read_data_len reg_addr
          env.ioctlRet env.rxByte read_data_len read_data_len 0 with
      | none => none
      | some (evs, rem, ok, acc) =>
        let csD := hs_spi_cs_control st false
        let allEvs := SpiEvent.lock :: SpiEvent.fdCheck :: csA.2 ::
          (evs ++ [csD.2, SpiEvent.unlock])
        if ok = false then
          some { ret := -6, events := allEvs, state := some st, readOut := some acc }
        else if rem ≠ 0 then
          some { ret := -7, events := allEvs, state := some st, readOut := some acc }
        else
          some { ret := 0, events := allEvs, state := some st, readOut := some acc }

/-- The transfer loop of `hs_spi_write_read_data_sub` (hs_spi.c:734): like
the full-duplex loop, but the first chunk (`remain = total`) is a two-part
call led by the one-byte register address. -/
def hs_spi_write_read_data_sub_loop (maxLen total reg : Nat) (f : Nat → Int)
    (g : Nat → Nat) :
    Nat → Nat → Nat → Option (List SpiEvent × Nat × Bool × List Nat)
  | _, 0, _ => some ([], 0, true, [])
  | 0, _ + 1, _ => none
  | fuel + 1, r + 1, idx =>
    let remain := r + 1
    let current := min remain maxLen
    let data_offset := total - remain
    let parts : List SpiPart :=
      if remain = total then
        [{ tx_buf := BufPtr.regAddr reg, len := 1 },
         { tx_buf := BufPtr.tx data_offset, rx_buf := BufPtr.rx data_offset, len := current }]
      else
        [{ tx_buf := BufPtr.tx data_offset, rx_buf := BufPtr.rx data_offset, len := current }]
    if f idx < 0 then
      some ([SpiEvent.ioctl parts], remain, false, [])
    else
      match hs_spi_write_read_data_sub_loop maxLen total reg f g fuel
          (remain - current) (idx + 1) with
      | none => none
      | some (evs, rem, ok, acc) =>
        some (SpiEvent.ioctl parts :: evs, rem, ok,
          (List.range current).map (fun i => g (data_offset + i)) ++ acc)

/-- Translation of `hs_spi_write_read_data_sub` (hs_spi.c:660). -/
def hs_spi_write_read_data_sub (h : Option HsSpi) (reg_addr : Nat)
    (write_data : Option (List Nat)) (write_data_len : Nat)
    (read_data : Option (List Nat)) (read_data_len : Nat) (env : SpiEnv) :
    Option SpiRes :=
  match h with
  | none => some { ret := -1, events := [], state := none }
  | some st =>
  match write_data with
  | none => some { ret := -2, events := [], state := some st }
  | some wd =>
  if write_data_len = 0 then
    some { ret := -3, events := [], state := some st }
  else
  match read_data with
  | none => some { ret := -4, events := [], state := some st }
  | some _ =>
  if read_data_len = 0 then
    some { ret := -5, events := [], state := some st }
  else if st.fd < 0 then
    some { ret := -6, events := [SpiEvent.lock, SpiEvent.fdCheck, SpiEvent.unlock],
           state := some st }
  else
    let transfer_len := max write_data_len read_data_len
    if env.mallocOk 0 = false then
      some { ret := -7,
             events := [SpiEvent.lock, SpiEvent.fdCheck, SpiEvent.allocTx false,
               SpiEvent.unlock],
             state := some st }
    else
      let txData := memcpyList (List.replicate transfer_len 0) wd write_data_len
      if env.mallocOk 1 = false then
        some { ret := -8,
               events := [SpiEvent.lock, SpiEvent.fdCheck, SpiEvent.allocTx true,
                 SpiEvent.allocRx false, SpiEvent.unlock],
               state := some st, txWire := some txData }
      else
        let csA := hs_spi_cs_control st true
        if csA.1 < 0 then
          some { ret := -9,
                 events := [SpiEvent.lock, SpiEvent.fdCheck, SpiEvent.allocTx true,
                   SpiEvent.allocRx true, csA.2, SpiEvent.unlock],
                 state := some st, txWire := some txData }
        else
          match hs_spi_write_read_data_sub_loop st.max_transfer_len transfer_len reg_addr
              env.ioctlRet env.rxByte transfer_len transfer_len 0 with
          | none => none
          | some (evs, rem, ok, acc) =>
            let csD := hs_spi_cs_control st false
            let allEvs := SpiEvent.lock :: SpiEvent.fdCheck :: SpiEvent.allocTx true ::
              SpiEvent.allocRx true :: csA.2 :: (evs ++ [csD.2, SpiEvent.unlock])
            if ok = false then
              some { ret := -10, events := allEvs, state := some st, txWire := some txData }
            else if rem ≠ 0 then
              some { ret := -11, events := allEvs, state := some st, txWire := some txData }
            else
              some { ret := 0, events := allEvs, state := some st,
                     readOut := some (acc.take read_data_len), txWire := some txData }

/-- Translation of `hs_spi_set_cs_control_cb` (hs_spi.c:189): a locked field
update. -/
def hs_spi_set_cs_control_cb (h : Option HsSpi) (cb : Option (Bool → Int)) :
    Int × Option HsSpi :=
  match h with
  | none => (-1, none)
  | some st => (0, some { st with cs_control_cb := cb })

/-- Translation of `hs_spi_set_max_transfer_len` (hs_spi.c:203): a locked
field update, substituting the default 4096 for a requested value of 0. -/
def hs_spi_set_max_transfer_len (h : Option HsSpi) (n : Nat) : Int × Option HsSpi :=
  match h with
  | none => (-1, none)
  | some st => (0, some { st with max_transfer_len := if n = 0 then 4096 else n })

/-- Environment of `hs_spi_init`: the descriptor returned by `open` (negative
on failure) and the results of the six configuration `ioctl` steps, indexed
0..5 in program order (write mode, read mode, write speed, read speed, write
bits, read bits). -/
structure InitEnv where
  openRet : Int
  cfgRet : Nat → Int
deriving Inhabited

/-- Translation of `hs_spi_init` (hs_spi.c:73): close any previously open
descriptor, then open; each of the six configuration steps fails with its own
code, closing the newly opened descriptor; on success store the descriptor
and substitute the default chunk size 4096 when none was configured. -/
def hs_spi_init (h : Option HsSpi) (spi_name : Option String) (env : InitEnv) :
    Int × Option HsSpi × List SpiEvent :=
  match h with
  | none => (-1, none, [])
  | some st =>
  match spi_name with
  | none => (-2, some st, [])
  | some _ =>
    let closeEvs : List SpiEvent :=
      if st.fd ≠ -1 then [SpiEvent.closeDev st.fd] else []
    let st1 : HsSpi := if st.fd ≠ -1 then { st with fd := -1 } else st
    let pre : List SpiEvent := SpiEvent.lock :: closeEvs
    if env.openRet < 0 then
      (-3, some st1, pre ++ [SpiEvent.openDev env.openRet, SpiEvent.unlock])
    else
      let preO := pre ++ [SpiEvent.openDev env.openRet]
      if env.cfgRet 0 < 0 then
        (-4, some st1, preO ++ [SpiEvent.cfg 0 (env.cfgRet 0),
          SpiEvent.closeDev env.openRet, SpiEvent.unlock])
      else if env.cfgRet 1 < 0 then
        (-5, some st1, preO ++ [SpiEvent.cfg 0 (env.cfgRet 0), SpiEvent.cfg 1 (env.cfgRet 1),
          SpiEvent.closeDev env.openRet, SpiEvent.unlock])
      else if env.cfgRet 2 < 0 then
        (-6, some st1, preO ++ [SpiEvent.cfg 0 (env.cfgRet 0), SpiEvent.cfg 1 (env.cfgRet 1),
          SpiEvent.cfg 2 (env.cfgRet 2), SpiEvent.closeDev env.openRet, SpiEvent.unlock])
      else if env.cfgRet 3 < 0 then
        (-7, some st1, preO ++ [SpiEvent.cfg 0 (env.cfgRet 0), SpiEvent.cfg 1 (env.cfgRet 1),
          SpiEvent.cfg 2 (env.cfgRet 2), SpiEvent.cfg 3 (env.cfgRet 3),
          SpiEvent.closeDev env.openRet, SpiEvent.unlock])
      else if env.cfgRet 4 < 0 then
        (-8, some st1, preO ++ [SpiEvent.cfg 0 (env.cfgRet 0), SpiEvent.cfg 1 (env.cfgRet 1),
          SpiEvent.cfg 2 (env.cfgRet 2), SpiEvent.cfg 3 (env.cfgRet 3),
          SpiEvent.cfg 4 (env.cfgRet 4), SpiEvent.closeDev env.openRet, SpiEvent.unlock])
      else if env.cfgRet 5 < 0 then
        (-9, some st1, preO ++ [SpiEvent.cfg 0 (env.cfgRet 0), SpiEvent.cfg 1 (env.cfgRet 1),
          SpiEvent.cfg 2 (env.cfgRet 2), SpiEvent.cfg 3 (env.cfgRet 3),
          SpiEvent.cfg 4 (env.cfgRet 4), SpiEvent.cfg 5 (env.cfgRet 5),
          SpiEvent.closeDev env.openRet, SpiEvent.unlock])
      else
        let newMax := if st1.max_transfer_len = 0 then 4096 else st1.max_transfer_len
        (0, some { st1 with fd := env.openRet, max_transfer_len := newMax },
         preO ++ [SpiEvent.cfg 0 (env.cfgRet 0), SpiEvent.cfg 1 (env.cfgRet 1),
           SpiEvent.cfg 2 (env.cfgRet 2), SpiEvent.cfg 3 (env.cfgRet 3),
           SpiEvent.cfg 4 (env.cfgRet 4), SpiEvent.cfg 5 (env.cfgRet 5), SpiEvent.unlock])

/-- The native calls (transfer-descriptor arrays) occurring in a trace. -/
def ioctlCalls (evs : List SpiEvent) : List (List SpiPart) :=
  evs.filterMap fun e =>
    match e with
    | SpiEvent.ioctl ps => some ps
    | _ => none

/-- The chip-select levels the configured callback was actually invoked
with, in order. -/
def csInvocations (evs : List SpiEvent) : List Bool :=
  evs.filterMap fun e =>
    match e with
    | SpiEvent.cs en true => some en
    | _ => none

/-- The native call issued by `hs_spi_write_data` for the chunk `p`. -/
def wrCall (p : Nat × Nat) : SpiEvent :=
  SpiEvent.ioctl [{ tx_buf := BufPtr.wr p.1, len := p.2 }]

/-- The native call issued by `hs_spi_read_data` for the chunk `p`. -/
def rdCall (p : Nat × Nat) : SpiEvent :=
  SpiEvent.ioctl [{ rx_buf := BufPtr.rd p.1, len := p.2 }]

/-- The native call issued by `hs_spi_write_read_data` for the chunk `p`. -/
def duplexCall (p : Nat × Nat) : SpiEvent :=
  SpiEvent.ioctl [{ tx_buf := BufPtr.tx p.1, rx_buf := BufPtr.rx p.1, len := p.2 }]

/-- The native call issued by `hs_spi_write_data_sub` for the chunk `p`: the
chunk at offset 0 (the first one) carries the register-address part in
front. -/
def wrSubCall (reg : Nat) (p : Nat × Nat) : SpiEvent :=
  if p.1 = 0 then
    SpiEvent.ioctl [{ tx_buf := BufPtr.regAddr reg, len := 1 },
      { tx_buf := BufPtr.wr p.1, len := p.2 }]
  else
    SpiEvent.ioctl [{ tx_buf := BufPtr.wr p.1, len := p.2 }]

/-- The native call issued by `hs_spi_read_data_sub` for the chunk `p`. -/
def rdSubCall (reg : Nat) (p : Nat × Nat) : SpiEvent :=
  if p.1 = 0 then
    SpiEvent.ioctl [{ tx_buf := BufPtr.regAddr reg, len := 1 },
      { rx_buf := BufPtr.rd p.1, len := p.2 }]
  else
    SpiEvent.ioctl [{ rx_buf := BufPtr.rd p.1, len := p.2 }]

/-- The native call issued by `hs_spi_write_read_data_sub` for the chunk
`p`. -/
def duplexSubCall (reg : Nat) (p : Nat × Nat) : SpiEvent :=
  if p.1 = 0 then
    SpiEvent.ioctl [{ tx_buf := BufPtr.regAddr reg, len := 1 },
      { tx_buf := BufPtr.tx p.1, rx_buf := BufPtr.rx p.1, len := p.2 }]
  else
    SpiEvent.ioctl [{ tx_buf := BufPtr.tx p.1, rx_buf := BufPtr.rx p.1, len := p.2 }]

/-- The bytes a receiving loop collects for a list of chunks: for each chunk,
the device bytes at its data positions, in order. -/
def rxOf (g : Nat → Nat) : List (Nat × Nat) → List Nat
  | [] => []
  | p :: rest => (List.range p.2).map (fun i => g (p.1 + i)) ++ rxOf g rest

/-- Index of the first event satisfying `p`, if any. -/
def firstIdxAux (p : SpiEvent → Bool) : List SpiEvent → Nat → Option Nat
  | [], _ => none
  | e :: es, n => if p e then some n else firstIdxAux p es (n + 1)

/-- Index of the first event satisfying `p`, if any. -/
def firstIdx (p : SpiEvent → Bool) (evs : List SpiEvent) : Option Nat :=
  firstIdxAux p evs 0

/-- Recognizes a scratch-buffer allocation event. -/
def isAllocEv : SpiEvent → Bool
  | SpiEvent.allocTx _ => true
  | SpiEvent.allocRx _ => true
  | _ => false

/-- Recognizes the chip-select assertion (`enable = true`) event. -/
def isCsAssertEv : SpiEvent → Bool
  | SpiEvent.cs true _ => true
  | _ => false

/-- Recognizes a native transfer call event. -/
def isIoctlEv : SpiEvent → Bool
  | SpiEvent.ioctl _ => true
  | _ => false

/-- Handle states reachable from `hs_spi_create` by sequences of the public
operations (initialisation, the two setters, and the six transfer
operations, each with arbitrary arguments and environments). -/
inductive Reachable : HsSpi → Prop where
  | created : Reachable hs_spi_create
  | init (st st' : HsSpi) (name : Option String) (env : InitEnv) (ret : Int)
      (evs : List SpiEvent) (hst : Reachable st)
      (h : hs_spi_init (some st) name env = (ret, some st', evs)) : Reachable st'
  | setCb (st st' : HsSpi) (cb : Option (Bool → Int)) (ret : Int) (hst : Reachable st)
      (h : hs_spi_set_cs_control_cb (some st) cb = (ret, some st')) : Reachable st'
  | setMaxLen (st st' : HsSpi) (n : Nat) (ret : Int) (hst : Reachable st)
      (h : hs_spi_set_max_transfer_len (some st) n = (ret, some st')) : Reachable st'
  | writeData (st st' : HsSpi) (wd : Option (List Nat)) (n : Nat) (env : SpiEnv)
      (r : SpiRes) (hst : Reachable st)
      (h : hs_spi_write_data (some st) wd n env = some r)
      (h2 : r.state = some st') : Reachable st'
  | readData (st st' : HsSpi) (rd : Option (List Nat)) (n : Nat) (env : SpiEnv)
      (r : SpiRes) (hst : Reachable st)
      (h : hs_spi_read_data (some st) rd n env = some r)
      (h2 : r.state = some st') : Reachable st'
  | writeReadData (st st' : HsSpi) (wd rd : Option (List Nat)) (m n : Nat) (env : SpiEnv)
      (r : SpiRes) (hst : Reachable st)
      (h : hs_spi_write_read_data (some st) wd m rd n env = some r)
      (h2 : r.state = some st') : Reachable st'
  | writeDataSub (st st' : HsSpi) (reg : Nat) (wd : Option (List Nat)) (n : Nat)
      (env : SpiEnv) (r : SpiRes) (hst : Reachable st)
      (h : hs_spi_write_data_sub (some st) reg wd n env = some r)
      (h2 : r.state = some st') : Reachable st'
  | readDataSub (st st' : HsSpi) (reg : Nat) (rd : Option (List Nat)) (n : Nat)
      (env : SpiEnv) (r : SpiRes) (hst : Reachable st)
      (h : hs_spi_read_data_sub (some st) reg rd n env = some r)
      (h2 : r.state = some st') : Reachable st'
  | writeReadDataSub (st st' : HsSpi) (reg : Nat) (wd rd : Option (List Nat)) (m n : Nat)
      (env : SpiEnv) (r : SpiRes) (hst : Reachable st)
      (h : hs_spi_write_read_data_sub (some st) reg wd m rd n env = some r)
      (h2 : r.state = some st') : Reachable st'

example : chunkPairs 10 4 10 10 = [(0, 4), (4, 4), (8, 2)] := by decide

example : segsOkB 10 4 0 (chunkPairs 10 4 10 10) = true := by decide

example :
    hs_spi_write_data (some { fd := 0, cs_control_cb := none, max_transfer_len := 4 })
      (some [9, 9, 9, 9, 9, 9, 9, 9, 9, 9]) 10
      { ioctlRet := fun _ => 0, rxByte := fun _ => 0, mallocOk := fun _ => true } =
    some { ret := 0,
           events := [SpiEvent.lock, SpiEvent.fdCheck, SpiEvent.cs true false,
             SpiEvent.ioctl [{ tx_buf := BufPtr.wr 0, len := 4 }],
             SpiEvent.ioctl [{ tx_buf := BufPtr.wr 4, len := 4 }],
             SpiEvent.ioctl [{ tx_buf := BufPtr.wr 8, len := 2 }],
             SpiEvent.cs false false, SpiEvent.unlock],
           state := some { fd := 0, cs_control_cb := none, max_transfer_len := 4 } } := by
  rfl

/-- Every chunk list produced by the segmentation recurrence tiles
`[total - remain, total)` with segments of length between 1 and `maxLen`,
provided `maxLen ≥ 1` and the fuel covers the remaining length. -/
lemma chunkPairs_segsOk (total maxLen : Nat) (hC : 1 ≤ maxLen) :
    ∀ fuel remain, remain ≤ fuel → remain ≤ total →
      segsOkB total maxLen (total - remain) (chunkPairs total maxLen fuel remain) = true := by
  intro fuel
  induction fuel with
  | zero =>
    intro remain h1 h2
    have hr : remain = 0 := Nat.le_zero.mp h1
    subst hr
    simp [chunkPairs, segsOkB]
  | succ fuel ih =>
    intro remain h1 h2
    match remain with
    | 0 =>
      simp [chunkPairs, segsOkB]
    | r + 1 =>
      have hcur1 : 1 ≤ min (r + 1) maxLen := le_min (Nat.succ_le_succ (Nat.zero_le r)) hC
      have hcurr : min (r + 1) maxLen ≤ r + 1 := min_le_left _ _
      have hoff : total - (r + 1) + min (r + 1) maxLen
          = total - ((r + 1) - min (r + 1) maxLen) := by omega
      simp only [chunkPairs, segsOkB, Bool.and_eq_true, beq_iff_eq, decide_eq_true_eq]
      refine ⟨⟨⟨trivial, hcur1⟩, min_le_right _ _⟩, ?_⟩
      rw [hoff]
      exact ih _ (by omega) (by omega)

/-- When `maxLen ≥ 1`, every `ioctl` in the `hs_spi_write_data` loop
succeeding, the loop terminates with `remain = 0` and issues exactly the
single-part calls of the chunk decomposition. -/
lemma write_loop_ok (total maxLen : Nat) (f : Nat → Int) (hC : 1 ≤ maxLen)
    (hf : ∀ k, 0 ≤ f k) :
    ∀ fuel remain idx, remain ≤ fuel →
      hs_spi_write_data_loop maxLen total f fuel remain idx =
        some ((chunkPairs total maxLen fuel remain).map wrCall, 0, true) := by
  intro fuel
  induction fuel with
  | zero =>
    intro remain idx h1
    have hr : remain = 0 := Nat.le_zero.mp h1
    subst hr
    simp [hs_spi_write_data_loop, chunkPairs]
  | succ fuel ih =>
    intro remain idx h1
    match remain with
    | 0 => simp [hs_spi_write_data_loop, chunkPairs]
    | r + 1 =>
      have hcur1 : 1 ≤ min (r + 1) maxLen := le_min (Nat.succ_le_succ (Nat.zero_le r)) hC
      rw [hs_spi_write_data_loop]
      simp only [not_lt.mpr (hf idx), if_neg (not_lt.mpr (hf idx))]
      rw [ih ((r + 1) - min (r + 1) maxLen) (idx + 1) (by omega)]
      simp [chunkPairs, wrCall]

/-- Same as `write_loop_ok` for the `hs_spi_read_data` loop: it also returns
the device bytes for every data position of every chunk, in order. -/
lemma read_loop_ok (total maxLen : Nat) (f : Nat → Int) (g : Nat → Nat) (hC : 1 ≤ maxLen)
    (hf : ∀ k, 0 ≤ f k) :
    ∀ fuel remain idx, remain ≤ fuel →
      hs_spi_read_data_loop maxLen total f g fuel remain idx =
        some ((chunkPairs total maxLen fuel remain).map rdCall, 0, true,
          rxOf g (chunkPairs total maxLen fuel remain)) := by
  intro fuel
  induction fuel with
  | zero =>
    intro remain idx h1
    have hr : remain = 0 := Nat.le_zero.mp h1
    subst hr
    simp [hs_spi_read_data_loop, chunkPairs, rxOf]
  | succ fuel ih =>
    intro remain idx h1
    match remain with
    | 0 => simp [hs_spi_read_data_loop, chunkPairs, rxOf]
    | r + 1 =>
      have hcur1 : 1 ≤ min (r + 1) maxLen := le_min (Nat.succ_le_succ (Nat.zero_le r)) hC
      rw [hs_spi_read_data_loop]
      simp only [if_neg (not_lt.mpr (hf idx))]
      rw [ih ((r + 1) - min (r + 1) maxLen) (idx + 1) (by omega)]
      simp [chunkPairs, rdCall, rxOf]

/-- Same as `write_loop_ok` for the full-duplex `hs_spi_write_read_data`
loop. -/
lemma duplex_loop_ok (total maxLen : Nat) (f : Nat → Int) (g : Nat → Nat) (hC : 1 ≤ maxLen)
    (hf : ∀ k, 0 ≤ f k) :
    ∀ fuel remain idx, remain ≤ fuel →
      hs_spi_write_read_data_loop maxLen total f g fuel remain idx =
        some ((chunkPairs total maxLen fuel remain).map duplexCall, 0, true,
          rxOf g (chunkPairs total maxLen fuel remain)) := by
  intro fuel
  induction fuel with
  | zero =>
    intro remain idx h1
    have hr : remain = 0 := Nat.le_zero.mp h1
    subst hr
    simp [hs_spi_write_read_data_loop, chunkPairs, rxOf]
  | succ fuel ih =>
    intro remain idx h1
    match remain with
    | 0 => simp [hs_spi_write_read_data_loop, chunkPairs, rxOf]
    | r + 1 =>
      have hcur1 : 1 ≤ min (r + 1) maxLen := le_min (Nat.succ_le_succ (Nat.zero_le r)) hC
      rw [hs_spi_write_read_data_loop]
      simp only [if_neg (not_lt.mpr (hf idx))]
      rw [ih ((r + 1) - min (r + 1) maxLen) (idx + 1) (by omega)]
      simp [chunkPairs, duplexCall, rxOf]

/-- Same as `write_loop_ok` for the `hs_spi_write_data_sub` loop: the chunk
at offset 0 (equivalently, the iteration with `remain = total`) is the
two-part call led by the register address. -/
lemma wrSub_loop_ok (total maxLen reg : Nat) (f : Nat → Int) (hC : 1 ≤ maxLen)
    (hf : ∀ k, 0 ≤ f k) :
    ∀ fuel remain idx, remain ≤ fuel → remain ≤ total →
      hs_spi_write_data_sub_loop maxLen total reg f fuel remain idx =
        some ((chunkPairs total maxLen fuel remain).map (wrSubCall reg), 0, true) := by
  intro fuel
  induction fuel with
  | zero =>
    intro remain idx h1 h2
    have hr : remain = 0 := Nat.le_zero.mp h1
    subst hr
    simp [hs_spi_write_data_sub_loop, chunkPairs]
  | succ fuel ih =>
    intro remain idx h1 h2
    match remain with
    | 0 => simp [hs_spi_write_data_sub_loop, chunkPairs]
    | r + 1 =>
      have hcur1 : 1 ≤ min (r + 1) maxLen := le_min (Nat.succ_le_succ (Nat.zero_le r)) hC
      rw [hs_spi_write_data_sub_loop]
      simp only [if_neg (not_lt.mpr (hf idx))]
      rw [ih ((r + 1) - min (r + 1) maxLen) (idx + 1) (by omega) (by omega)]
      by_cases hft : r + 1 = total
      · have hoff0 : total - (r + 1) = 0 := by omega
        simp [chunkPairs, wrSubCall, hft, hoff0]
      · have hoffne : ¬ (total - (r + 1) = 0) := by omega
        simp [chunkPairs, wrSubCall, hft, hoffne]

/-- Same as `wrSub_loop_ok` for the `hs_spi_read_data_sub` loop. -/
lemma rdSub_loop_ok (total maxLen reg : Nat) (f : Nat → Int) (g : Nat → Nat)
    (hC : 1 ≤ maxLen) (hf : ∀ k, 0 ≤ f k) :
    ∀ fuel remain idx, remain ≤ fuel → remain ≤ total →
      hs_spi_read_data_sub_loop maxLen total reg f g fuel remain idx =
        some ((chunkPairs total maxLen fuel remain).map (rdSubCall reg), 0, true,
          rxOf g (chunkPairs total maxLen fuel remain)) := by
  intro fuel
  induction fuel with
  | zero =>
    intro remain idx h1 h2
    have hr : remain = 0 := Nat.le_zero.mp h1
    subst hr
    simp [hs_spi_read_data_sub_loop, chunkPairs, rxOf]
  | succ fuel ih =>
    intro remain idx h1 h2
    match remain with
    | 0 => simp [hs_spi_read_data_sub_loop, chunkPairs, rxOf]
    | r + 1 =>
      have hcur1 : 1 ≤ min (r + 1) maxLen := le_min (Nat.succ_le_succ (Nat.zero_le r)) hC
      rw [hs_spi_read_data_sub_loop]
      simp only [if_neg (not_lt.mpr (hf idx))]
      rw [ih ((r + 1) - min (r + 1) maxLen) (idx + 1) (by omega) (by omega)]
      by_cases hft : r + 1 = total
      · have hoff0 : total - (r + 1) = 0 := by omega
        simp [chunkPairs, rdSubCall, rxOf, hft, hoff0]
      · have hoffne : ¬ (total - (r + 1) = 0) := by omega
        simp [chunkPairs, rdSubCall, rxOf, hft, hoffne]

/-- Same as `wrSub_loop_ok` for the `hs_spi_write_read_data_sub` loop. -/
lemma duplexSub_loop_ok (total maxLen reg : Nat) (f : Nat → Int) (g : Nat → Nat)
    (hC : 1 ≤ maxLen) (hf : ∀ k, 0 ≤ f k) :
    ∀ fuel remain idx, remain ≤ fuel → remain ≤ total →
      hs_spi_write_read_data_sub_loop maxLen total reg f g fuel remain idx =
        some ((chunkPairs total maxLen fuel remain).map (duplexSubCall reg), 0, true,
          rxOf g (chunkPairs total maxLen fuel remain)) := by
  intro fuel
  induction fuel with
  | zero =>
    intro remain idx h1 h2
    have hr : remain = 0 := Nat.le_zero.mp h1
    subst hr
    simp [hs_spi_write_read_data_sub_loop, chunkPairs, rxOf]
  | succ fuel ih =>
    intro remain idx h1 h2
    match remain with
    | 0 => simp [hs_spi_write_read_data_sub_loop, chunkPairs, rxOf]
    | r + 1 =>
      have hcur1 : 1 ≤ min (r + 1) maxLen := le_min (Nat.succ_le_succ (Nat.zero_le r)) hC
      rw [hs_spi_write_read_data_sub_loop]
      simp only [if_neg (not_lt.mpr (hf idx))]
      rw [ih ((r + 1) - min (r + 1) maxLen) (idx + 1) (by omega) (by omega)]
      by_cases hft : r + 1 = total
      · have hoff0 : total - (r + 1) = 0 := by omega
        simp [chunkPairs, duplexSubCall, rxOf, hft, hoff0]
      · have hoffne : ¬ (total - (r + 1) = 0) := by omega
        simp [chunkPairs, duplexSubCall, rxOf, hft, hoffne]

/-- The bytes collected over the whole chunk decomposition are exactly the
device bytes of positions `total - remain` through `total - 1`. -/
lemma rxOf_chunkPairs (total maxLen : Nat) (g : Nat → Nat) (hC : 1 ≤ maxLen) :
    ∀ fuel remain, remain ≤ fuel → remain ≤ total →
      rxOf g (chunkPairs total maxLen fuel remain) =
        (List.range' (total - remain) remain).map g := by
  intro fuel
  induction fuel with
  | zero =>
    intro remain h1 h2
    have hr : remain = 0 := Nat.le_zero.mp h1
    subst hr
    simp [chunkPairs, rxOf]
  | succ fuel ih =>
    intro remain h1 h2
    match remain with
    | 0 => simp [chunkPairs, rxOf]
    | r + 1 =>
      have hcur1 : 1 ≤ min (r + 1) maxLen := le_min (Nat.succ_le_succ (Nat.zero_le r)) hC
      have hcurr : min (r + 1) maxLen ≤ r + 1 := min_le_left _ _
      simp only [chunkPairs, rxOf]
      rw [ih ((r + 1) - min (r + 1) maxLen) (by omega) (by omega)]
      have hsplit : List.range' (total - (r + 1)) (min (r + 1) maxLen) ++
          List.range' (total - ((r + 1) - min (r + 1) maxLen))
            ((r + 1) - min (r + 1) maxLen) =
          List.range' (total - (r + 1)) (r + 1) := by
        have h3 : total - ((r + 1) - min (r + 1) maxLen)
            = total - (r + 1) + 1 * min (r + 1) maxLen := by omega
        rw [h3, List.range'_append]
        congr 1
        omega
      have hmr : ∀ s n : Nat,
          (List.range n).map (fun i => g (s + i)) = (List.range' s n).map g := by
        intro s n
        rw [List.range'_eq_map_range, List.map_map]
        rfl
      rw [hmr, ← List.map_append, hsplit]

/-- Operation `hs_spi_write_data` never modifies the handle fields: the state in any
result equals the input state. -/
lemma hs_spi_write_data_state (st : HsSpi) (wd : Option (List Nat)) (n : Nat)
    (env : SpiEnv) (r : SpiRes)
    (h : hs_spi_write_data (some st) wd n env = some r) : r.state = some st := by
  cases wd with
  | none =>
    simp only [hs_spi_write_data, Option.some.injEq] at h
    rw [← h]
  | some wd =>
    simp only [hs_spi_write_data] at h
    repeat' split at h
    all_goals first
      | exact Option.noConfusion h
      | (simp only [Option.some.injEq] at h; rw [← h])

/-- Operation `hs_spi_read_data` never modifies the handle fields. -/
lemma hs_spi_read_data_state (st : HsSpi) (rd : Option (List Nat)) (n : Nat)
    (env : SpiEnv) (r : SpiRes)
    (h : hs_spi_read_data (some st) rd n env = some r) : r.state = some st := by
  cases rd with
  | none =>
    simp only [hs_spi_read_data, Option.some.injEq] at h
    rw [← h]
  | some rd =>
    simp only [hs_spi_read_data] at h
    repeat' split at h
    all_goals first
      | exact Option.noConfusion h
      | (simp only [Option.some.injEq] at h; rw [← h])

/-- Operation `hs_spi_write_read_data` never modifies the handle fields. -/
lemma hs_spi_write_read_data_state (st : HsSpi) (wd rd : Option (List Nat)) (m n : Nat)
    (env : SpiEnv) (r : SpiRes)
    (h : hs_spi_write_read_data (some st) wd m rd n env = some r) : r.state = some st := by
  cases wd with
  | none =>
    simp only [hs_spi_write_read_data, Option.some.injEq] at h
    rw [← h]
  | some wd =>
    cases rd with
    | none =>
      simp only [hs_spi_write_read_data] at h
      repeat' split at h
      all_goals first
        | exact Option.noConfusion h
        | (simp only [Option.some.injEq] at h; rw [← h])
    | some rd =>
      simp only [hs_spi_write_read_data] at h
      repeat' split at h
      all_goals first
        | exact Option.noConfusion h
        | (simp only [Option.some.injEq] at h; rw [← h])

/-- Operation `hs_spi_write_data_sub` never modifies the handle fields. -/
lemma hs_spi_write_data_sub_state (st : HsSpi) (reg : Nat) (wd : Option (List Nat))
    (n : Nat) (env : SpiEnv) (r : SpiRes)
    (h : hs_spi_write_data_sub (some st) reg wd n env = some r) : r.state = some st := by
  cases wd with
  | none =>
    simp only [hs_spi_write_data_sub, Option.some.injEq] at h
    rw [← h]
  | some wd =>
    simp only [hs_spi_write_data_sub] at h
    repeat' split at h
    all_goals first
      | exact Option.noConfusion h
      | (simp only [Option.some.injEq] at h; rw [← h])

/-- Operation `hs_spi_read_data_sub` never modifies the handle fields. -/
lemma hs_spi_read_data_sub_state (st : HsSpi) (reg : Nat) (rd : Option (List Nat))
    (n : Nat) (env : SpiEnv) (r : SpiRes)
    (h : hs_spi_read_data_sub (some st) reg rd n env = some r) : r.state = some st := by
  cases rd with
  | none =>
    simp only [hs_spi_read_data_sub, Option.some.injEq] at h
    rw [← h]
  | some rd =>
    simp only [hs_spi_read_data_sub] at h
    repeat' split at h
    all_goals first
      | exact Option.noConfusion h
      | (simp only [Option.some.injEq] at h; rw [← h])

/-- Operation `hs_spi_write_read_data_sub` never modifies the handle fields. -/
lemma hs_spi_write_read_data_sub_state (st : HsSpi) (reg : Nat) (wd rd : Option (List Nat))
    (m n : Nat) (env : SpiEnv) (r : SpiRes)
    (h : hs_spi_write_read_data_sub (some st) reg wd m rd n env = some r) :
    r.state = some st := by
  cases wd with
  | none =>
    simp only [hs_spi_write_read_data_sub, Option.some.injEq] at h
    rw [← h]
  | some wd =>
    cases rd with
    | none =>
      simp only [hs_spi_write_read_data_sub] at h
      repeat' split at h
      all_goals first
        | exact Option.noConfusion h
        | (simp only [Option.some.injEq] at h; rw [← h])
    | some rd =>
      simp only [hs_spi_write_read_data_sub] at h
      repeat' split at h
      all_goals first
        | exact Option.noConfusion h
        | (simp only [Option.some.injEq] at h; rw [← h])

set_option maxHeartbeats 1000000 in
/-- The central handle invariant: in every reachable state, an open
descriptor implies a strictly positive `max_transfer_len`. -/
lemma reachable_max_pos (st : HsSpi) (h : Reachable st) :
    0 ≤ st.fd → 0 < st.max_transfer_len := by
  induction h with
  | created =>
    intro hfd
    simp [hs_spi_create] at hfd
  | init st st' name env ret evs hst heq ih =>
    cases name with
    | none =>
      simp only [hs_spi_init, Prod.mk.injEq, Option.some.injEq] at heq
      obtain ⟨-, h2, -⟩ := heq
      subst h2
      exact ih
    | some name =>
      simp only [hs_spi_init] at heq
      repeat' split at heq
      all_goals
        simp only [Prod.mk.injEq, Option.some.injEq] at heq
      all_goals obtain ⟨-, h2, -⟩ := heq
      all_goals subst h2
      all_goals intro hfd
      all_goals (try exact ih hfd)
      all_goals simp at *
      all_goals omega
  | setCb st st' cb ret hst heq ih =>
    simp only [hs_spi_set_cs_control_cb, Prod.mk.injEq, Option.some.injEq] at heq
    obtain ⟨-, h2⟩ := heq
    subst h2
    exact ih
  | setMaxLen st st' n ret hst heq ih =>
    simp only [hs_spi_set_max_transfer_len, Prod.mk.injEq, Option.some.injEq] at heq
    obtain ⟨-, h2⟩ := heq
    subst h2
    intro hfd
    show 0 < (if n = 0 then 4096 else n)
    split
    all_goals omega
  | writeData st st' wd n env r hst heq h2 ih =>
    rw [hs_spi_write_data_state st wd n env r heq, Option.some.injEq] at h2
    subst h2
    exact ih
  | readData st st' rd n env r hst heq h2 ih =>
    rw [hs_spi_read_data_state st rd n env r heq, Option.some.injEq] at h2
    subst h2
    exact ih
  | writeReadData st st' wd rd m n env r hst heq h2 ih =>
    rw [hs_spi_write_read_data_state st wd rd m n env r heq, Option.some.injEq] at h2
    subst h2
    exact ih
  | writeDataSub st st' reg wd n env r hst heq h2 ih =>
    rw [hs_spi_write_data_sub_state st reg wd n env r heq, Option.some.injEq] at h2
    subst h2
    exact ih
  | readDataSub st st' reg rd n env r hst heq h2 ih =>
    rw [hs_spi_read_data_sub_state st reg rd n env r heq, Option.some.injEq] at h2
    subst h2
    exact ih
  | writeReadDataSub st st' reg wd rd m n env r hst heq h2 ih =>
    rw [hs_spi_write_read_data_sub_state st reg wd rd m n env r heq, Option.some.injEq] at h2
    subst h2
    exact ih

/-- The `hs_spi_write_data` loop performs no chip-select callback
invocations, whatever the `ioctl` results: its trace is `ioctl` events
only. -/
lemma write_loop_csInv (maxLen total : Nat) (f : Nat → Int) :
    ∀ fuel remain idx evs rem ok,
      hs_spi_write_data_loop maxLen total f fuel remain idx = some (evs, rem, ok) →
      csInvocations evs = [] := by
  intro fuel
  induction fuel with
  | zero =>
    intro remain idx evs rem ok h
    match remain with
    | 0 =>
      simp only [hs_spi_write_data_loop, Option.some.injEq, Prod.mk.injEq] at h
      obtain ⟨h1, -, -⟩ := h
      subst h1
      rfl
    | r + 1 =>
      simp only [hs_spi_write_data_loop] at h
      exact Option.noConfusion h
  | succ fuel ih =>
    intro remain idx evs rem ok h
    match remain with
    | 0 =>
      simp only [hs_spi_write_data_loop, Option.some.injEq, Prod.mk.injEq] at h
      obtain ⟨h1, -, -⟩ := h
      subst h1
      rfl
    | r + 1 =>
      simp only [hs_spi_write_data_loop] at h
      by_cases hf : f idx < 0
      · rw [if_pos hf] at h
        simp only [Option.some.injEq, Prod.mk.injEq] at h
        obtain ⟨h1, -, -⟩ := h
        subst h1
        rfl
      · rw [if_neg hf] at h
        cases hrec : hs_spi_write_data_loop maxLen total f fuel
            (r + 1 - min (r + 1) maxLen) (idx + 1) with
        | none => rw [hrec] at h; exact Option.noConfusion h
        | some trip =>
          obtain ⟨evs', rem', ok'⟩ := trip
          rw [hrec] at h
          simp only [Option.some.injEq, Prod.mk.injEq] at h
          obtain ⟨h1, -, -⟩ := h
          subst h1
          simpa [csInvocations] using ih _ _ _ _ _ hrec

/-- The `hs_spi_read_data` loop performs no chip-select callback
invocations. -/
lemma read_loop_csInv (maxLen total : Nat) (f : Nat → Int) (g : Nat → Nat) :
    ∀ fuel remain idx evs rem ok acc,
      hs_spi_read_data_loop maxLen total f g fuel remain idx = some (evs, rem, ok, acc) →
      csInvocations evs = [] := by
  intro fuel
  induction fuel with
  | zero =>
    intro remain idx evs rem ok acc h
    match remain with
    | 0 =>
      simp only [hs_spi_read_data_loop, Option.some.injEq, Prod.mk.injEq] at h
      obtain ⟨h1, -, -, -⟩ := h
      subst h1
      rfl
    | r + 1 =>
      simp only [hs_spi_read_data_loop] at h
      exact Option.noConfusion h
  | succ fuel ih =>
    intro remain idx evs rem ok acc h
    match remain with
    | 0 =>
      simp only [hs_spi_read_data_loop, Option.some.injEq, Prod.mk.injEq] at h
      obtain ⟨h1, -, -, -⟩ := h
      subst h1
      rfl
    | r + 1 =>
      simp only [hs_spi_read_data_loop] at h
      by_cases hf : f idx < 0
      · rw [if_pos hf] at h
        simp only [Option.some.injEq, Prod.mk.injEq] at h
        obtain ⟨h1, -, -, -⟩ := h
        subst h1
        rfl
      · rw [if_neg hf] at h
        cases hrec : hs_spi_read_data_loop maxLen total f g fuel
            (r + 1 - min (r + 1) maxLen) (idx + 1) with
        | none => rw [hrec] at h; exact Option.noConfusion h
        | some quad =>
          obtain ⟨evs', rem', ok', acc'⟩ := quad
          rw [hrec] at h
          simp only [Option.some.injEq, Prod.mk.injEq] at h
          obtain ⟨h1, -, -, -⟩ := h
          subst h1
          simpa [csInvocations] using ih _ _ _ _ _ _ hrec

/-- The `hs_spi_write_read_data` loop performs no chip-select callback
invocations. -/
lemma duplex_loop_csInv (maxLen total : Nat) (f : Nat → Int) (g : Nat → Nat) :
    ∀ fuel remain idx evs rem ok acc,
      hs_spi_write_read_data_loop maxLen total f g fuel remain idx = some (evs, rem, ok, acc) →
      csInvocations evs = [] := by
  intro fuel
  induction fuel with
  | zero =>
    intro remain idx evs rem ok acc h
    match remain with
    | 0 =>
      simp only [hs_spi_write_read_data_loop, Option.some.injEq, Prod.mk.injEq] at h
      obtain ⟨h1, -, -, -⟩ := h
      subst h1
      rfl
    | r + 1 =>
      simp only [hs_spi_write_read_data_loop] at h
      exact Option.noConfusion h
  | succ fuel ih =>
    intro remain idx evs rem ok acc h
    match remain with
    | 0 =>
      simp only [hs_spi_write_read_data_loop, Option.some.injEq, Prod.mk.injEq] at h
      obtain ⟨h1, -, -, -⟩ := h
      subst h1
      rfl
    | r + 1 =>
      simp only [hs_spi_write_read_data_loop] at h
      by_cases hf : f idx < 0
      · rw [if_pos hf] at h
        simp only [Option.some.injEq, Prod.mk.injEq] at h
        obtain ⟨h1, -, -, -⟩ := h
        subst h1
        rfl
      · rw [if_neg hf] at h
        cases hrec : hs_spi_write_read_data_loop maxLen total f g fuel
            (r + 1 - min (r + 1) maxLen) (idx + 1) with
        | none => rw [hrec] at h; exact Option.noConfusion h
        | some quad =>
          obtain ⟨evs', rem', ok', acc'⟩ := quad
          rw [hrec] at h
          simp only [Option.some.injEq, Prod.mk.injEq] at h
          obtain ⟨h1, -, -, -⟩ := h
          subst h1
          simpa [csInvocations] using ih _ _ _ _ _ _ hrec

/-- The `hs_spi_write_data_sub` loop performs no chip-select callback
invocations. -/
lemma wrSub_loop_csInv (maxLen total reg : Nat) (f : Nat → Int) :
    ∀ fuel remain idx evs rem ok,
      hs_spi_write_data_sub_loop maxLen total reg f fuel remain idx = some (evs, rem, ok) →
      csInvocations evs = [] := by
  intro fuel
  induction fuel with
  | zero =>
    intro remain idx evs rem ok h
    match remain with
    | 0 =>
      simp only [hs_spi_write_data_sub_loop, Option.some.injEq, Prod.mk.injEq] at h
      obtain ⟨h1, -, -⟩ := h
      subst h1
      rfl
    | r + 1 =>
      simp only [hs_spi_write_data_sub_loop] at h
      exact Option.noConfusion h
  | succ fuel ih =>
    intro remain idx evs rem ok h
    match remain with
    | 0 =>
      simp only [hs_spi_write_data_sub_loop, Option.some.injEq, Prod.mk.injEq] at h
      obtain ⟨h1, -, -⟩ := h
      subst h1
      rfl
    | r + 1 =>
      simp only [hs_spi_write_data_sub_loop] at h
      by_cases hf : f idx < 0
      · rw [if_pos hf] at h
        simp only [Option.some.injEq, Prod.mk.injEq] at h
        obtain ⟨h1, -, -⟩ := h
        subst h1
        rfl
      · rw [if_neg hf] at h
        cases hrec : hs_spi_write_data_sub_loop maxLen total reg f fuel
            (r + 1 - min (r + 1) maxLen) (idx + 1) with
        | none => rw [hrec] at h; exact Option.noConfusion h
        | some trip =>
          obtain ⟨evs', rem', ok'⟩ := trip
          rw [hrec] at h
          simp only [Option.some.injEq, Prod.mk.injEq] at h
          obtain ⟨h1, -, -⟩ := h
          subst h1
          simpa [csInvocations] using ih _ _ _ _ _ hrec

/-- The `hs_spi_read_data_sub` loop performs no chip-select callback
invocations. -/
lemma rdSub_loop_csInv (maxLen total reg : Nat) (f : Nat → Int) (g : Nat → Nat) :
    ∀ fuel remain idx evs rem ok acc,
      hs_spi_read_data_sub_loop maxLen total reg f g fuel remain idx
        = some (evs, rem, ok, acc) →
      csInvocations evs = [] := by
  intro fuel
  induction fuel with
  | zero =>
    intro remain idx evs rem ok acc h
    match remain with
    | 0 =>
      simp only [hs_spi_read_data_sub_loop, Option.some.injEq, Prod.mk.injEq] at h
      obtain ⟨h1, -, -, -⟩ := h
      subst h1
      rfl
    | r + 1 =>
      simp only [hs_spi_read_data_sub_loop] at h
      exact Option.noConfusion h
  | succ fuel ih =>
    intro remain idx evs rem ok acc h
    match remain with
    | 0 =>
      simp only [hs_spi_read_data_sub_loop, Option.some.injEq, Prod.mk.injEq] at h
      obtain ⟨h1, -, -, -⟩ := h
      subst h1
      rfl
    | r + 1 =>
      simp only [hs_spi_read_data_sub_loop] at h
      by_cases hf : f idx < 0
      · rw [if_pos hf] at h
        simp only [Option.some.injEq, Prod.mk.injEq] at h
        obtain ⟨h1, -, -, -⟩ := h
        subst h1
        rfl
      · rw [if_neg hf] at h
        cases hrec : hs_spi_read_data_sub_loop maxLen total reg f g fuel
            (r + 1 - min (r + 1) maxLen) (idx + 1) with
        | none => rw [hrec] at h; exact Option.noConfusion h
        | some quad =>
          obtain ⟨evs', rem', ok', acc'⟩ := quad
          rw [hrec] at h
          simp only [Option.some.injEq, Prod.mk.injEq] at h
          obtain ⟨h1, -, -, -⟩ := h
          subst h1
          simpa [csInvocations] using ih _ _ _ _ _ _ hrec

/-- The `hs_spi_write_read_data_sub` loop performs no chip-select callback
invocations. -/
lemma duplexSub_loop_csInv (maxLen total reg : Nat) (f : Nat → Int) (g : Nat → Nat) :
    ∀ fuel remain idx evs rem ok acc,
      hs_spi_write_read_data_sub_loop maxLen total reg f g fuel remain idx
        = some (evs, rem, ok, acc) →
      csInvocations evs = [] := by
  intro fuel
  induction fuel with
  | zero =>
    intro remain idx evs rem ok acc h
    match remain with
    | 0 =>
      simp only [hs_spi_write_read_data_sub_loop, Option.some.injEq, Prod.mk.injEq] at h
      obtain ⟨h1, -, -, -⟩ := h
      subst h1
      rfl
    | r + 1 =>
      simp only [hs_spi_write_read_data_sub_loop] at h
      exact Option.noConfusion h
  | succ fuel ih =>
    intro remain idx evs rem ok acc h
    match remain with
    | 0 =>
      simp only [hs_spi_write_read_data_sub_loop, Option.some.injEq, Prod.mk.injEq] at h
      obtain ⟨h1, -, -, -⟩ := h
      subst h1
      rfl
    | r + 1 =>
      simp only [hs_spi_write_read_data_sub_loop] at h
      by_cases hf : f idx < 0
      · rw [if_pos hf] at h
        simp only [Option.some.injEq, Prod.mk.injEq] at h
        obtain ⟨h1, -, -, -⟩ := h
        subst h1
        rfl
      · rw [if_neg hf] at h
        cases hrec : hs_spi_write_read_data_sub_loop maxLen total reg f g fuel
            (r + 1 - min (r + 1) maxLen) (idx + 1) with
        | none => rw [hrec] at h; exact Option.noConfusion h
        | some quad =>
          obtain ⟨evs', rem', ok', acc'⟩ := quad
          rw [hrec] at h
          simp only [Option.some.injEq, Prod.mk.injEq] at h
          obtain ⟨h1, -, -, -⟩ := h
          subst h1
          simpa [csInvocations] using ih _ _ _ _ _ _ hrec

/-- Concatenation distributes over the invoked chip-select levels. -/
lemma csInvocations_append (a b : List SpiEvent) :
    csInvocations (a ++ b) = csInvocations a ++ csInvocations b := by
  simp [csInvocations]

/-- Case analysis of `hs_spi_write_data` past its argument checks: either the
descriptor check fails, or the chip-select assertion fails, or the loop runs,
and in each case the return code and the full event trace are determined. -/
lemma hs_spi_write_data_shape (st : HsSpi) (wd : List Nat) (n : Nat) (env : SpiEnv)
    (r : SpiRes) (hn : n ≠ 0)
    (h : hs_spi_write_data (some st) (some wd) n env = some r) :
    (st.fd < 0 ∧ r.ret = -4 ∧
      r.events = [SpiEvent.lock, SpiEvent.fdCheck, SpiEvent.unlock]) ∨
    (0 ≤ st.fd ∧ (hs_spi_cs_control st true).1 < 0 ∧ r.ret = -5 ∧
      r.events = [SpiEvent.lock, SpiEvent.fdCheck, (hs_spi_cs_control st true).2,
        SpiEvent.unlock]) ∨
    (0 ≤ st.fd ∧ 0 ≤ (hs_spi_cs_control st true).1 ∧
      ∃ evs rem ok, hs_spi_write_data_loop st.max_transfer_len n env.ioctlRet n n 0
          = some (evs, rem, ok) ∧
        csInvocations evs = [] ∧
        (r.ret = 0 ∨ r.ret = -6 ∨ r.ret = -7) ∧
        r.events = SpiEvent.lock :: SpiEvent.fdCheck :: (hs_spi_cs_control st true).2 ::
          (evs ++ [(hs_spi_cs_control st false).2, SpiEvent.unlock])) := by
  by_cases hfd : st.fd < 0
  · have hop : hs_spi_write_data (some st) (some wd) n env =
        some { ret := -4, events := [SpiEvent.lock, SpiEvent.fdCheck, SpiEvent.unlock],
               state := some st } := by
      simp [hs_spi_write_data, hn, hfd]
    rw [hop, Option.some.injEq] at h
    rw [← h]
    exact Or.inl ⟨hfd, rfl, rfl⟩
  · by_cases hcs : (hs_spi_cs_control st true).1 < 0
    · have hop : hs_spi_write_data (some st) (some wd) n env =
          some { ret := -5,
                 events := [SpiEvent.lock, SpiEvent.fdCheck, (hs_spi_cs_control st true).2,
                   SpiEvent.unlock],
                 state := some st } := by
        simp [hs_spi_write_data, hn, hfd, hcs]
      rw [hop, Option.some.injEq] at h
      rw [← h]
      exact Or.inr (Or.inl ⟨not_lt.mp hfd, hcs, rfl, rfl⟩)
    · cases hrec : hs_spi_write_data_loop st.max_transfer_len n env.ioctlRet n n 0 with
      | none =>
        have hop : hs_spi_write_data (some st) (some wd) n env = none := by
          simp [hs_spi_write_data, hn, hfd, hcs, hrec]
        rw [hop] at h
        exact Option.noConfusion h
      | some trip =>
        obtain ⟨evs, rem, ok⟩ := trip
        have hop : hs_spi_write_data (some st) (some wd) n env =
            some { ret := if ok = false then -6 else if rem ≠ 0 then -7 else 0,
                   events := SpiEvent.lock :: SpiEvent.fdCheck ::
                     (hs_spi_cs_control st true).2 ::
                     (evs ++ [(hs_spi_cs_control st false).2, SpiEvent.unlock]),
                   state := some st } := by
          by_cases hok : ok = false
          · simp [hs_spi_write_data, hn, hfd, hcs, hrec, hok]
          · by_cases hrem : rem ≠ 0
            · simp [hs_spi_write_data, hn, hfd, hcs, hrec, hok, hrem]
            · simp [hs_spi_write_data, hn, hfd, hcs, hrec, hok, hrem]
        rw [hop, Option.some.injEq] at h
        rw [← h]
        refine Or.inr (Or.inr ⟨not_lt.mp hfd, not_lt.mp hcs, evs, rem, ok, rfl,
          write_loop_csInv _ _ _ _ _ _ _ _ _ hrec, ?_, rfl⟩)
        by_cases hok : ok = false
        · simp [hok]
        · by_cases hrem : rem ≠ 0
          · simp [hok, hrem]
          · simp [hok, hrem]

/-- Case analysis of `hs_spi_read_data` past its argument checks. -/
lemma hs_spi_read_data_shape (st : HsSpi) (rd : List Nat) (n : Nat) (env : SpiEnv)
    (r : SpiRes) (hn : n ≠ 0)
    (h : hs_spi_read_data (some st) (some rd) n env = some r) :
    (st.fd < 0 ∧ r.ret = -4 ∧
      r.events = [SpiEvent.lock, SpiEvent.fdCheck, SpiEvent.unlock]) ∨
    (0 ≤ st.fd ∧ (hs_spi_cs_control st true).1 < 0 ∧ r.ret = -5 ∧
      r.events = [SpiEvent.lock, SpiEvent.fdCheck, (hs_spi_cs_control st true).2,
        SpiEvent.unlock]) ∨
    (0 ≤ st.fd ∧ 0 ≤ (hs_spi_cs_control st true).1 ∧
      ∃ evs rem ok acc,
        hs_spi_read_data_loop st.max_transfer_len n env.ioctlRet env.rxByte n n 0
          = some (evs, rem, ok, acc) ∧
        csInvocations evs = [] ∧
        (r.ret = 0 ∨ r.ret = -6 ∨ r.ret = -7) ∧
        r.events = SpiEvent.lock :: SpiEvent.fdCheck :: (hs_spi_cs_control st true).2 ::
          (evs ++ [(hs_spi_cs_control st false).2, SpiEvent.unlock])) := by
  by_cases hfd : st.fd < 0
  · have hop : hs_spi_read_data (some st) (some rd) n env =
        some { ret := -4, events := [SpiEvent.lock, SpiEvent.fdCheck, SpiEvent.unlock],
               state := some st } := by
      simp [hs_spi_read_data, hn, hfd]
    rw [hop, Option.some.injEq] at h
    rw [← h]
    exact Or.inl ⟨hfd, rfl, rfl⟩
  · by_cases hcs : (hs_spi_cs_control st true).1 < 0
    · have hop : hs_spi_read_data (some st) (some rd) n env =
          some { ret := -5,
                 events := [SpiEvent.lock, SpiEvent.fdCheck, (hs_spi_cs_control st true).2,
                   SpiEvent.unlock],
                 state := some st } := by
        simp [hs_spi_read_data, hn, hfd, hcs]
      rw [hop, Option.some.injEq] at h
      rw [← h]
      exact Or.inr (Or.inl ⟨not_lt.mp hfd, hcs, rfl, rfl⟩)
    · cases hrec : hs_spi_read_data_loop st.max_transfer_len n env.ioctlRet env.rxByte
          n n 0 with
      | none =>
        have hop : hs_spi_read_data (some st) (some rd) n env = none := by
          simp [hs_spi_read_data, hn, hfd, hcs, hrec]
        rw [hop] at h
        exact Option.noConfusion h
      | some quad =>
        obtain ⟨evs, rem, ok, acc⟩ := quad
        have hop : hs_spi_read_data (some st) (some rd) n env =
            some { ret := if ok = false then -6 else if rem ≠ 0 then -7 else 0,
                   events := SpiEvent.lock :: SpiEvent.fdCheck ::
                     (hs_spi_cs_control st true).2 ::
                     (evs ++ [(hs_spi_cs_control st false).2, SpiEvent.unlock]),
                   state := some st, readOut := some acc } := by
          by_cases hok : ok = false
          · simp [hs_spi_read_data, hn, hfd, hcs, hrec, hok]
          · by_cases hrem : rem ≠ 0
            · simp [hs_spi_read_data, hn, hfd, hcs, hrec, hok, hrem]
            · simp [hs_spi_read_data, hn, hfd, hcs, hrec, hok, hrem]
        rw [hop, Option.some.injEq] at h
        rw [← h]
        refine Or.inr (Or.inr ⟨not_lt.mp hfd, not_lt.mp hcs, evs, rem, ok, acc, rfl,
          read_loop_csInv _ _ _ _ _ _ _ _ _ _ _ hrec, ?_, rfl⟩)
        by_cases hok : ok = false
        · simp [hok]
        · by_cases hrem : rem ≠ 0
          · simp [hok, hrem]
          · simp [hok, hrem]

/-- Case analysis of `hs_spi_write_data_sub` past its argument checks. -/
lemma hs_spi_write_data_sub_shape (st : HsSpi) (reg : Nat) (wd : List Nat) (n : Nat)
    (env : SpiEnv) (r : SpiRes) (hn : n ≠ 0)
    (h : hs_spi_write_data_sub (some st) reg (some wd) n env = some r) :
    (st.fd < 0 ∧ r.ret = -4 ∧
      r.events = [SpiEvent.lock, SpiEvent.fdCheck, SpiEvent.unlock]) ∨
    (0 ≤ st.fd ∧ (hs_spi_cs_control st true).1 < 0 ∧ r.ret = -5 ∧
      r.events = [SpiEvent.lock, SpiEvent.fdCheck, (hs_spi_cs_control st true).2,
        SpiEvent.unlock]) ∨
    (0 ≤ st.fd ∧ 0 ≤ (hs_spi_cs_control st true).1 ∧
      ∃ evs rem ok,
        hs_spi_write_data_sub_loop st.max_transfer_len n reg env.ioctlRet n n 0
          = some (evs, rem, ok) ∧
        csInvocations evs = [] ∧
        (r.ret = 0 ∨ r.ret = -6 ∨ r.ret = -7) ∧
        r.events = SpiEvent.lock :: SpiEvent.fdCheck :: (hs_spi_cs_control st true).2 ::
          (evs ++ [(hs_spi_cs_control st false).2, SpiEvent.unlock])) := by
  by_cases hfd : st.fd < 0
  · have hop : hs_spi_write_data_sub (some st) reg (some wd) n env =
        some { ret := -4, events := [SpiEvent.lock, SpiEvent.fdCheck, SpiEvent.unlock],
               state := some st } := by
      simp [hs_spi_write_data_sub, hn, hfd]
    rw [hop, Option.some.injEq] at h
    rw [← h]
    exact Or.inl ⟨hfd, rfl, rfl⟩
  · by_cases hcs : (hs_spi_cs_control st true).1 < 0
    · have hop : hs_spi_write_data_sub (some st) reg (some wd) n env =
          some { ret := -5,
                 events := [SpiEvent.lock, SpiEvent.fdCheck, (hs_spi_cs_control st true).2,
                   SpiEvent.unlock],
                 state := some st } := by
        simp [hs_spi_write_data_sub, hn, hfd, hcs]
      rw [hop, Option.some.injEq] at h
      rw [← h]
      exact Or.inr (Or.inl ⟨not_lt.mp hfd, hcs, rfl, rfl⟩)
    · cases hrec : hs_spi_write_data_sub_loop st.max_transfer_len n reg env.ioctlRet
          n n 0 with
      | none =>
        have hop : hs_spi_write_data_sub (some st) reg (some wd) n env = none := by
          simp [hs_spi_write_data_sub, hn, hfd, hcs, hrec]
        rw [hop] at h
        exact Option.noConfusion h
      | some trip =>
        obtain ⟨evs, rem, ok⟩ := trip
        have hop : hs_spi_write_data_sub (some st) reg (some wd) n env =
            some { ret := if ok = false then -6 else if rem ≠ 0 then -7 else 0,
                   events := SpiEvent.lock :: SpiEvent.fdCheck ::
                     (hs_spi_cs_control st true).2 ::
                     (evs ++ [(hs_spi_cs_control st false).2, SpiEvent.unlock]),
                   state := some st } := by
          by_cases hok : ok = false
          · simp [hs_spi_write_data_sub, hn, hfd, hcs, hrec, hok]
          · by_cases hrem : rem ≠ 0
            · simp [hs_spi_write_data_sub, hn, hfd, hcs, hrec, hok, hrem]
            · simp [hs_spi_write_data_sub, hn, hfd, hcs, hrec, hok, hrem]
        rw [hop, Option.some.injEq] at h
        rw [← h]
        refine Or.inr (Or.inr ⟨not_lt.mp hfd, not_lt.mp hcs, evs, rem, ok, rfl,
          wrSub_loop_csInv _ _ _ _ _ _ _ _ _ _ hrec, ?_, rfl⟩)
        by_cases hok : ok = false
        · simp [hok]
        · by_cases hrem : rem ≠ 0
          · simp [hok, hrem]
          · simp [hok, hrem]

/-- Case analysis of `hs_spi_read_data_sub` past its argument checks. -/
lemma hs_spi_read_data_sub_shape (st : HsSpi) (reg : Nat) (rd : List Nat) (n : Nat)
    (env : SpiEnv) (r : SpiRes) (hn : n ≠ 0)
    (h : hs_spi_read_data_sub (some st) reg (some rd) n env = some r) :
    (st.fd < 0 ∧ r.ret = -4 ∧
      r.events = [SpiEvent.lock, SpiEvent.fdCheck, SpiEvent.unlock]) ∨
    (0 ≤ st.fd ∧ (hs_spi_cs_control st true).1 < 0 ∧ r.ret = -5 ∧
      r.events = [SpiEvent.lock, SpiEvent.fdCheck, (hs_spi_cs_control st true).2,
        SpiEvent.unlock]) ∨
    (0 ≤ st.fd ∧ 0 ≤ (hs_spi_cs_control st true).1 ∧
      ∃ evs rem ok acc,
        hs_spi_read_data_sub_loop st.max_transfer_len n reg env.ioctlRet env.rxByte n n 0
          = some (evs, rem, ok, acc) ∧
        csInvocations evs = [] ∧
        (r.ret = 0 ∨ r.ret = -6 ∨ r.ret = -7) ∧
        r.events = SpiEvent.lock :: SpiEvent.fdCheck :: (hs_spi_cs_control st true).2 ::
          (evs ++ [(hs_spi_cs_control st false).2, SpiEvent.unlock])) := by
  by_cases hfd : st.fd < 0
  · have hop : hs_spi_read_data_sub (some st) reg (some rd) n env =
        some { ret := -4, events := [SpiEvent.lock, SpiEvent.fdCheck, SpiEvent.unlock],
               state := some st } := by
      simp [hs_spi_read_data_sub, hn, hfd]
    rw [hop, Option.some.injEq] at h
    rw [← h]
    exact Or.inl ⟨hfd, rfl, rfl⟩
  · by_cases hcs : (hs_spi_cs_control st true).1 < 0
    · have hop : hs_spi_read_data_sub (some st) reg (some rd) n env =
          some { ret := -5,
                 events := [SpiEvent.lock, SpiEvent.fdCheck, (hs_spi_cs_control st true).2,
                   SpiEvent.unlock],
                 state := some st } := by
        simp [hs_spi_read_data_sub, hn, hfd, hcs]
      rw [hop, Option.some.injEq] at h
      rw [← h]
      exact Or.inr (Or.inl ⟨not_lt.mp hfd, hcs, rfl, rfl⟩)
    · cases hrec : hs_spi_read_data_sub_loop st.max_transfer_len n reg env.ioctlRet
          env.rxByte n n 0 with
      | none =>
        have hop : hs_spi_read_data_sub (some st) reg (some rd) n env = none := by
          simp [hs_spi_read_data_sub, hn, hfd, hcs, hrec]
        rw [hop] at h
        exact Option.noConfusion h
      | some quad =>
        obtain ⟨evs, rem, ok, acc⟩ := quad
        have hop : hs_spi_read_data_sub (some st) reg (some rd) n env =
            some { ret := if ok = false then -6 else if rem ≠ 0 then -7 else 0,
                   events := SpiEvent.lock :: SpiEvent.fdCheck ::
                     (hs_spi_cs_control st true).2 ::
                     (evs ++ [(hs_spi_cs_control st false).2, SpiEvent.unlock]),
                   state := some st, readOut := some acc } := by
          by_cases hok : ok = false
          · simp [hs_spi_read_data_sub, hn, hfd, hcs, hrec, hok]
          · by_cases hrem : rem ≠ 0
            · simp [hs_spi_read_data_sub, hn, hfd, hcs, hrec, hok, hrem]
            · simp [hs_spi_read_data_sub, hn, hfd, hcs, hrec, hok, hrem]
        rw [hop, Option.some.injEq] at h
        rw [← h]
        refine Or.inr (Or.inr ⟨not_lt.mp hfd, not_lt.mp hcs, evs, rem, ok, acc, rfl,
          rdSub_loop_csInv _ _ _ _ _ _ _ _ _ _ _ _ hrec, ?_, rfl⟩)
        by_cases hok : ok = false
        · simp [hok]
        · by_cases hrem : rem ≠ 0
          · simp [hok, hrem]
          · simp [hok, hrem]

/-- Case analysis of `hs_spi_write_read_data` past its argument checks: the
descriptor check, the two scratch allocations, the chip-select assertion and
the transfer loop, with the return code and the full event trace of each
outcome. -/
lemma hs_spi_write_read_data_shape (st : HsSpi) (wd rd : List Nat) (m n : Nat)
    (env : SpiEnv) (r : SpiRes) (hm : m ≠ 0) (hn : n ≠ 0)
    (h : hs_spi_write_read_data (some st) (some wd) m (some rd) n env = some r) :
    (st.fd < 0 ∧ r.ret = -6 ∧
      r.events = [SpiEvent.lock, SpiEvent.fdCheck, SpiEvent.unlock]) ∨
    (0 ≤ st.fd ∧ env.mallocOk 0 = false ∧ r.ret = -7 ∧
      r.events = [SpiEvent.lock, SpiEvent.fdCheck, SpiEvent.allocTx false,
        SpiEvent.unlock]) ∨
    (0 ≤ st.fd ∧ env.mallocOk 0 = true ∧ env.mallocOk 1 = false ∧ r.ret = -8 ∧
      r.events = [SpiEvent.lock, SpiEvent.fdCheck, SpiEvent.allocTx true,
        SpiEvent.allocRx false, SpiEvent.unlock]) ∨
    (0 ≤ st.fd ∧ env.mallocOk 0 = true ∧ env.mallocOk 1 = true ∧
      (hs_spi_cs_control st true).1 < 0 ∧ r.ret = -9 ∧
      r.events = [SpiEvent.lock, SpiEvent.fdCheck, SpiEvent.allocTx true,
        SpiEvent.allocRx true, (hs_spi_cs_control st true).2, SpiEvent.unlock]) ∨
    (0 ≤ st.fd ∧ env.mallocOk 0 = true ∧ env.mallocOk 1 = true ∧
      0 ≤ (hs_spi_cs_control st true).1 ∧
      ∃ evs rem ok acc,
        hs_spi_write_read_data_loop st.max_transfer_len (max m n) env.ioctlRet
          env.rxByte (max m n) (max m n) 0 = some (evs, rem, ok, acc) ∧
        csInvocations evs = [] ∧
        (r.ret = 0 ∨ r.ret = -10 ∨ r.ret = -11) ∧
        r.events = SpiEvent.lock :: SpiEvent.fdCheck :: SpiEvent.allocTx true ::
          SpiEvent.allocRx true :: (hs_spi_cs_control st true).2 ::
          (evs ++ [(hs_spi_cs_control st false).2, SpiEvent.unlock])) := by
  by_cases hfd : st.fd < 0
  · have hop : hs_spi_write_read_data (some st) (some wd) m (some rd) n env =
        some { ret := -6, events := [SpiEvent.lock, SpiEvent.fdCheck, SpiEvent.unlock],
               state := some st } := by
      simp [hs_spi_write_read_data, hm, hn, hfd]
    rw [hop, Option.some.injEq] at h
    rw [← h]
    exact Or.inl ⟨hfd, rfl, rfl⟩
  · by_cases hm0 : env.mallocOk 0 = false
    · have hop : hs_spi_write_read_data (some st) (some wd) m (some rd) n env =
          some { ret := -7,
                 events := [SpiEvent.lock, SpiEvent.fdCheck, SpiEvent.allocTx false,
                   SpiEvent.unlock],
                 state := some st } := by
        simp [hs_spi_write_read_data, hm, hn, hfd, hm0]
      rw [hop, Option.some.injEq] at h
      rw [← h]
      exact Or.inr (Or.inl ⟨not_lt.mp hfd, hm0, rfl, rfl⟩)
    · rw [Bool.not_eq_false] at hm0
      by_cases hm1 : env.mallocOk 1 = false
      · have hop : hs_spi_write_read_data (some st) (some wd) m (some rd) n env =
            some { ret := -8,
                   events := [SpiEvent.lock, SpiEvent.fdCheck, SpiEvent.allocTx true,
                     SpiEvent.allocRx false, SpiEvent.unlock],
                   state := some st,
                   txWire := some (memcpyList (List.replicate (max m n) 0) wd m) } := by
          simp [hs_spi_write_read_data, hm, hn, hfd, hm0, hm1]
        rw [hop, Option.some.injEq] at h
        rw [← h]
        exact Or.inr (Or.inr (Or.inl ⟨not_lt.mp hfd, hm0, hm1, rfl, rfl⟩))
      · rw [Bool.not_eq_false] at hm1
        by_cases hcs : (hs_spi_cs_control st true).1 < 0
        · have hop : hs_spi_write_read_data (some st) (some wd) m (some rd) n env =
              some { ret := -9,
                     events := [SpiEvent.lock, SpiEvent.fdCheck, SpiEvent.allocTx true,
                       SpiEvent.allocRx true, (hs_spi_cs_control st true).2,
                       SpiEvent.unlock],
                     state := some st,
                     txWire := some (memcpyList (List.replicate (max m n) 0) wd m) } := by
            simp [hs_spi_write_read_data, hm, hn, hfd, hm0, hm1, hcs]
          rw [hop, Option.some.injEq] at h
          rw [← h]
          exact Or.inr (Or.inr (Or.inr (Or.inl
            ⟨not_lt.mp hfd, hm0, hm1, hcs, rfl, rfl⟩)))
        · cases hrec : hs_spi_write_read_data_loop st.max_transfer_len (max m n)
              env.ioctlRet env.rxByte (max m n) (max m n) 0 with
          | none =>
            have hop : hs_spi_write_read_data (some st) (some wd) m (some rd) n env
                = none := by
              simp [hs_spi_write_read_data, hm, hn, hfd, hm0, hm1, hcs, hrec]
            rw [hop] at h
            exact Option.noConfusion h
          | some quad =>
            obtain ⟨evs, rem, ok, acc⟩ := quad
            have hop : hs_spi_write_read_data (some st) (some wd) m (some rd) n env =
                some { ret := if ok = false then -10 else if rem ≠ 0 then -11 else 0,
                       events := SpiEvent.lock :: SpiEvent.fdCheck ::
                         SpiEvent.allocTx true :: SpiEvent.allocRx true ::
                         (hs_spi_cs_control st true).2 ::
                         (evs ++ [(hs_spi_cs_control st false).2, SpiEvent.unlock]),
                       state := some st,
                       readOut := if ok = false then none else if rem ≠ 0 then none
                         else some (acc.take n),
                       txWire := some (memcpyList (List.replicate (max m n) 0) wd m) } := by
              by_cases hok : ok = false
              · simp [hs_spi_write_read_data, hm, hn, hfd, hm0, hm1, hcs, hrec, hok]
              · by_cases hrem : rem ≠ 0
                · simp [hs_spi_write_read_data, hm, hn, hfd, hm0, hm1, hcs, hrec,
                    hok, hrem]
                · simp [hs_spi_write_read_data, hm, hn, hfd, hm0, hm1, hcs, hrec,
                    hok, hrem]
            rw [hop, Option.some.injEq] at h
            rw [← h]
            refine Or.inr (Or.inr (Or.inr (Or.inr ⟨not_lt.mp hfd, hm0, hm1,
              not_lt.mp hcs, evs, rem, ok, acc, rfl,
              duplex_loop_csInv _ _ _ _ _ _ _ _ _ _ _ hrec, ?_, rfl⟩)))
            by_cases hok : ok = false
            · simp [hok]
            · by_cases hrem : rem ≠ 0
              · simp [hok, hrem]
              · simp [hok, hrem]

/-- Case analysis of `hs_spi_write_read_data_sub` past its argument checks. -/
lemma hs_spi_write_read_data_sub_shape (st : HsSpi) (reg : Nat) (wd rd : List Nat)
    (m n : Nat) (env : SpiEnv) (r : SpiRes) (hm : m ≠ 0) (hn : n ≠ 0)
    (h : hs_spi_write_read_data_sub (some st) reg (some wd) m (some rd) n env = some r) :
    (st.fd < 0 ∧ r.ret = -6 ∧
      r.events = [SpiEvent.lock, SpiEvent.fdCheck, SpiEvent.unlock]) ∨
    (0 ≤ st.fd ∧ env.mallocOk 0 = false ∧ r.ret = -7 ∧
      r.events = [SpiEvent.lock, SpiEvent.fdCheck, SpiEvent.allocTx false,
        SpiEvent.unlock]) ∨
    (0 ≤ st.fd ∧ env.mallocOk 0 = true ∧ env.mallocOk 1 = false ∧ r.ret = -8 ∧
      r.events = [SpiEvent.lock, SpiEvent.fdCheck, SpiEvent.allocTx true,
        SpiEvent.allocRx false, SpiEvent.unlock]) ∨
    (0 ≤ st.fd ∧ env.mallocOk 0 = true ∧ env.mallocOk 1 = true ∧
      (hs_spi_cs_control st true).1 < 0 ∧ r.ret = -9 ∧
      r.events = [SpiEvent.lock, SpiEvent.fdCheck, SpiEvent.allocTx true,
        SpiEvent.allocRx true, (hs_spi_cs_control st true).2, SpiEvent.unlock]) ∨
    (0 ≤ st.fd ∧ env.mallocOk 0 = true ∧ env.mallocOk 1 = true ∧
      0 ≤ (hs_spi_cs_control st true).1 ∧
      ∃ evs rem ok acc,
        hs_spi_write_read_data_sub_loop st.max_transfer_len (max m n) reg env.ioctlRet
          env.rxByte (max m n) (max m n) 0 = some (evs, rem, ok, acc) ∧
        csInvocations evs = [] ∧
        (r.ret = 0 ∨ r.ret = -10 ∨ r.ret = -11) ∧
        r.events = SpiEvent.lock :: SpiEvent.fdCheck :: SpiEvent.allocTx true ::
          SpiEvent.allocRx true :: (hs_spi_cs_control st true).2 ::
          (evs ++ [(hs_spi_cs_control st false).2, SpiEvent.unlock])) := by
  by_cases hfd : st.fd < 0
  · have hop : hs_spi_write_read_data_sub (some st) reg (some wd) m (some rd) n env =
        some { ret := -6, events := [SpiEvent.lock, SpiEvent.fdCheck, SpiEvent.unlock],
               state := some st } := by
      simp [hs_spi_write_read_data_sub, hm, hn, hfd]
    rw [hop, Option.some.injEq] at h
    rw [← h]
    exact Or.inl ⟨hfd, rfl, rfl⟩
  · by_cases hm0 : env.mallocOk 0 = false
    · have hop : hs_spi_write_read_data_sub (some st) reg (some wd) m (some rd) n env =
          some { ret := -7,
                 events := [SpiEvent.lock, SpiEvent.fdCheck, SpiEvent.allocTx false,
                   SpiEvent.unlock],
                 state := some st } := by
        simp [hs_spi_write_read_data_sub, hm, hn, hfd, hm0]
      rw [hop, Option.some.injEq] at h
      rw [← h]
      exact Or.inr (Or.inl ⟨not_lt.mp hfd, hm0, rfl, rfl⟩)
    · rw [Bool.not_eq_false] at hm0
      by_cases hm1 : env.mallocOk 1 = false
      · have hop : hs_spi_write_read_data_sub (some st) reg (some wd) m (some rd) n env =
            some { ret := -8,
                   events := [SpiEvent.lock, SpiEvent.fdCheck, SpiEvent.allocTx true,
                     SpiEvent.allocRx false, SpiEvent.unlock],
                   state := some st,
                   txWire := some (memcpyList (List.replicate (max m n) 0) wd m) } := by
          simp [hs_spi_write_read_data_sub, hm, hn, hfd, hm0, hm1]
        rw [hop, Option.some.injEq] at h
        rw [← h]
        exact Or.inr (Or.inr (Or.inl ⟨not_lt.mp hfd, hm0, hm1, rfl, rfl⟩))
      · rw [Bool.not_eq_false] at hm1
        by_cases hcs : (hs_spi_cs_control st true).1 < 0
        · have hop : hs_spi_write_read_data_sub (some st) reg (some wd) m (some rd)
              n env =
              some { ret := -9,
                     events := [SpiEvent.lock, SpiEvent.fdCheck, SpiEvent.allocTx true,
                       SpiEvent.allocRx true, (hs_spi_cs_control st true).2,
                       SpiEvent.unlock],
                     state := some st,
                     txWire := some (memcpyList (List.replicate (max m n) 0) wd m) } := by
            simp [hs_spi_write_read_data_sub, hm, hn, hfd, hm0, hm1, hcs]
          rw [hop, Option.some.injEq] at h
          rw [← h]
          exact Or.inr (Or.inr (Or.inr (Or.inl
            ⟨not_lt.mp hfd, hm0, hm1, hcs, rfl, rfl⟩)))
        · cases hrec : hs_spi_write_read_data_sub_loop st.max_transfer_len (max m n)
              reg env.ioctlRet env.rxByte (max m n) (max m n) 0 with
          | none =>
            have hop : hs_spi_write_read_data_sub (some st) reg (some wd) m (some rd)
                n env = none := by
              simp [hs_spi_write_read_data_sub, hm, hn, hfd, hm0, hm1, hcs, hrec]
            rw [hop] at h
            exact Option.noConfusion h
          | some quad =>
            obtain ⟨evs, rem, ok, acc⟩ := quad
            have hop : hs_spi_write_read_data_sub (some st) reg (some wd) m (some rd)
                n env =
                some { ret := if ok = false then -10 else if rem ≠ 0 then -11 else 0,
                       events := SpiEvent.lock :: SpiEvent.fdCheck ::
                         SpiEvent.allocTx true :: SpiEvent.allocRx true ::
                         (hs_spi_cs_control st true).2 ::
                         (evs ++ [(hs_spi_cs_control st false).2, SpiEvent.unlock]),
                       state := some st,
                       readOut := if ok = false then none else if rem ≠ 0 then none
                         else some (acc.take n),
                       txWire := some (memcpyList (List.replicate (max m n) 0) wd m) } := by
              by_cases hok : ok = false
              · simp [hs_spi_write_read_data_sub, hm, hn, hfd, hm0, hm1, hcs, hrec, hok]
              · by_cases hrem : rem ≠ 0
                · simp [hs_spi_write_read_data_sub, hm, hn, hfd, hm0, hm1, hcs, hrec,
                    hok, hrem]
                · simp [hs_spi_write_read_data_sub, hm, hn, hfd, hm0, hm1, hcs, hrec,
                    hok, hrem]
            rw [hop, Option.some.injEq] at h
            rw [← h]
            refine Or.inr (Or.inr (Or.inr (Or.inr ⟨not_lt.mp hfd, hm0, hm1,
              not_lt.mp hcs, evs, rem, ok, acc, rfl,
              duplexSub_loop_csInv _ _ _ _ _ _ _ _ _ _ _ _ hrec, ?_, rfl⟩)))
            by_cases hok : ok = false
            · simp [hok]
            · by_cases hrem : rem ≠ 0
              · simp [hok, hrem]
              · simp [hok, hrem]

/-- C1: for every transfer operation (all six segmentation loops), with a
positive chunk limit and all native calls succeeding, the loop issues exactly
the calls of the chunk decomposition and terminates with the remaining-length
counter equal to 0 and result code "success"; the chunk decomposition of any
payload length `total` tiles `[0, total)` exactly, with every chunk length
between 1 and the limit (no gaps, no overlaps); and concretely,
`hs_spi_write_data` with `max_chunk_size = 4` and `write_data_len = 10` issues
exactly 3 native calls with lengths `[4, 4, 2]` at offsets `[0, 4, 8]` and
returns 0. -/
theorem claim_c1_segmentation_tiles :
    (∀ total maxLen idx (f : Nat → Int), 1 ≤ maxLen → (∀ k, 0 ≤ f k) →
      hs_spi_write_data_loop maxLen total f total total idx =
        some ((chunkPairs total maxLen total total).map wrCall, 0, true)) ∧
    (∀ total maxLen idx (f : Nat → Int) (g : Nat → Nat), 1 ≤ maxLen → (∀ k, 0 ≤ f k) →
      hs_spi_read_data_loop maxLen total f g total total idx =
        some ((chunkPairs total maxLen total total).map rdCall, 0, true,
          rxOf g (chunkPairs total maxLen total total))) ∧
    (∀ total maxLen idx (f : Nat → Int) (g : Nat → Nat), 1 ≤ maxLen → (∀ k, 0 ≤ f k) →
      hs_spi_write_read_data_loop maxLen total f g total total idx =
        some ((chunkPairs total maxLen total total).map duplexCall, 0, true,
          rxOf g (chunkPairs total maxLen total total))) ∧
    (∀ total maxLen reg idx (f : Nat → Int), 1 ≤ maxLen → (∀ k, 0 ≤ f k) →
      hs_spi_write_data_sub_loop maxLen total reg f total total idx =
        some ((chunkPairs total maxLen total total).map (wrSubCall reg), 0, true)) ∧
    (∀ total maxLen reg idx (f : Nat → Int) (g : Nat → Nat), 1 ≤ maxLen →
      (∀ k, 0 ≤ f k) →
      hs_spi_read_data_sub_loop maxLen total reg f g total total idx =
        some ((chunkPairs total maxLen total total).map (rdSubCall reg), 0, true,
          rxOf g (chunkPairs total maxLen total total))) ∧
    (∀ total maxLen reg idx (f : Nat → Int) (g : Nat → Nat), 1 ≤ maxLen →
      (∀ k, 0 ≤ f k) →
      hs_spi_write_read_data_sub_loop maxLen total reg f g total total idx =
        some ((chunkPairs total maxLen total total).map (duplexSubCall reg), 0, true,
          rxOf g (chunkPairs total maxLen total total))) ∧
    (∀ total maxLen, 1 ≤ maxLen →
      segsOkB total maxLen 0 (chunkPairs total maxLen total total) = true) ∧
    ((hs_spi_write_data (some { fd := 0, cs_control_cb := none, max_transfer_len := 4 })
        (some (List.replicate 10 7)) 10
        { ioctlRet := fun _ => 0, rxByte := fun _ => 0, mallocOk := fun _ => true }).map
      (fun r => (r.ret, ioctlCalls r.events)) =
      some (0, [[{ tx_buf := BufPtr.wr 0, len := 4 }],
                [{ tx_buf := BufPtr.wr 4, len := 4 }],
                [{ tx_buf := BufPtr.wr 8, len := 2 }]])) := by
  refine ⟨?_, ?_, ?_, ?_, ?_, ?_, ?_, ?_⟩
  · intro total maxLen idx f hC hf
    exact write_loop_ok total maxLen f hC hf total total idx le_rfl
  · intro total maxLen idx f g hC hf
    exact read_loop_ok total maxLen f g hC hf total total idx le_rfl
  · intro total maxLen idx f g hC hf
    exact duplex_loop_ok total maxLen f g hC hf total total idx le_rfl
  · intro total maxLen reg idx f hC hf
    exact wrSub_loop_ok total maxLen reg f hC hf total total idx le_rfl le_rfl
  · intro total maxLen reg idx f g hC hf
    exact rdSub_loop_ok total maxLen reg f g hC hf total total idx le_rfl le_rfl
  · intro total maxLen reg idx f g hC hf
    exact duplexSub_loop_ok total maxLen reg f g hC hf total total idx le_rfl le_rfl
  · intro total maxLen hC
    have := chunkPairs_segsOk total maxLen hC total total le_rfl le_rfl
    rwa [Nat.sub_self] at this
  · rfl

/-- Witness for C1 at a concrete input: `total = 10`, `maxLen = 4`, all
native calls succeeding. -/
theorem claim_c1_segmentation_tiles_witness :
    hs_spi_write_data_loop 4 10 (fun _ => 0) 10 10 0 =
      some ((chunkPairs 10 4 10 10).map wrCall, 0, true) ∧
    segsOkB 10 4 0 (chunkPairs 10 4 10 10) = true :=
  ⟨claim_c1_segmentation_tiles.1 10 4 0 (fun _ => 0) (by decide) (fun _ => le_refl 0),
   claim_c1_segmentation_tiles.2.2.2.2.2.2.1 10 4 (by decide)⟩

/-- After the first chunk, every chunk of the decomposition sits at a
strictly positive offset (the loop test `remain = total` therefore selects
exactly the first iteration). -/
lemma chunkPairs_offsets_pos (total maxLen : Nat) :
    ∀ fuel remain, remain < total → ∀ p ∈ chunkPairs total maxLen fuel remain, 0 < p.1 := by
  intro fuel
  induction fuel with
  | zero =>
    intro remain hlt p hp
    match remain with
    | 0 => simp [chunkPairs] at hp
    | r + 1 => simp [chunkPairs] at hp
  | succ fuel ih =>
    intro remain hlt p hp
    match remain with
    | 0 => simp [chunkPairs] at hp
    | r + 1 =>
      simp only [chunkPairs, List.mem_cons] at hp
      rcases hp with hp | hp
      · subst hp
        show 0 < total - (r + 1)
        omega
      · exact ih _ (by omega) p hp

/-- C2: in every register-addressed transfer with a positive data length and
chunk limit and all native calls succeeding, the register address travels
exactly once: the first native call is a two-part transfer (the one-byte
address part, then the first data segment of length `min total maxLen` at
offset 0), and every subsequent native call is a one-part transfer carrying
only data at a strictly positive offset; concretely, `hs_spi_read_data_sub`
with `read_data_len = 5`, `reg_addr = 0x20` and `max_chunk_size = 3` issues a
first two-part call (1 address byte + 3 data bytes) and a second one-part
call of 2 data bytes. -/
theorem claim_c2_addr_prefix_once :
    (∀ total maxLen reg idx (f : Nat → Int), 1 ≤ total → 1 ≤ maxLen →
      (∀ k, 0 ≤ f k) →
      ∃ rest, hs_spi_write_data_sub_loop maxLen total reg f total total idx =
          some (SpiEvent.ioctl [{ tx_buf := BufPtr.regAddr reg, len := 1 },
            { tx_buf := BufPtr.wr 0, len := min total maxLen }] :: rest, 0, true) ∧
        ∀ e ∈ rest, ∃ o l, 0 < o ∧
          e = SpiEvent.ioctl [{ tx_buf := BufPtr.wr o, len := l }]) ∧
    (∀ total maxLen reg idx (f : Nat → Int) (g : Nat → Nat), 1 ≤ total → 1 ≤ maxLen →
      (∀ k, 0 ≤ f k) →
      ∃ rest acc, hs_spi_read_data_sub_loop maxLen total reg f g total total idx =
          some (SpiEvent.ioctl [{ tx_buf := BufPtr.regAddr reg, len := 1 },
            { rx_buf := BufPtr.rd 0, len := min total maxLen }] :: rest, 0, true, acc) ∧
        ∀ e ∈ rest, ∃ o l, 0 < o ∧
          e = SpiEvent.ioctl [{ rx_buf := BufPtr.rd o, len := l }]) ∧
    (∀ total maxLen reg idx (f : Nat → Int) (g : Nat → Nat), 1 ≤ total → 1 ≤ maxLen →
      (∀ k, 0 ≤ f k) →
      ∃ rest acc, hs_spi_write_read_data_sub_loop maxLen total reg f g total total idx =
          some (SpiEvent.ioctl [{ tx_buf := BufPtr.regAddr reg, len := 1 },
            { tx_buf := BufPtr.tx 0, rx_buf := BufPtr.rx 0, len := min total maxLen }]
            :: rest, 0, true, acc) ∧
        ∀ e ∈ rest, ∃ o l, 0 < o ∧
          e = SpiEvent.ioctl [{ tx_buf := BufPtr.tx o, rx_buf := BufPtr.rx o, len := l }]) ∧
    ((hs_spi_read_data_sub
        (some { fd := 0, cs_control_cb := none, max_transfer_len := 3 })
        32 (some (List.replicate 5 0)) 5
        { ioctlRet := fun _ => 0, rxByte := fun _ => 9, mallocOk := fun _ => true }).map
      (fun r => (r.ret, ioctlCalls r.events)) =
      some (0, [[{ tx_buf := BufPtr.regAddr 32, len := 1 },
                 { rx_buf := BufPtr.rd 0, len := 3 }],
                [{ rx_buf := BufPtr.rd 3, len := 2 }]])) := by
  refine ⟨?_, ?_, ?_, ?_⟩
  · intro total maxLen reg idx f ht hC hf
    obtain ⟨t, rfl⟩ : ∃ t, total = t + 1 := ⟨total - 1, by omega⟩
    have hcur1 : 1 ≤ min (t + 1) maxLen := le_min (Nat.succ_le_succ (Nat.zero_le t)) hC
    have hloop := wrSub_loop_ok (t + 1) maxLen reg f hC hf (t + 1) (t + 1) idx le_rfl le_rfl
    have hcp : chunkPairs (t + 1) maxLen (t + 1) (t + 1) =
        (0, min (t + 1) maxLen) ::
          chunkPairs (t + 1) maxLen t (t + 1 - min (t + 1) maxLen) := by
      simp [chunkPairs]
    refine ⟨(chunkPairs (t + 1) maxLen t (t + 1 - min (t + 1) maxLen)).map
      (wrSubCall reg), ?_, ?_⟩
    · rw [hloop, hcp]
      simp [wrSubCall]
    · intro e he
      simp only [List.mem_map] at he
      obtain ⟨p, hp, rfl⟩ := he
      have hpos := chunkPairs_offsets_pos (t + 1) maxLen t
        (t + 1 - min (t + 1) maxLen) (by omega) p hp
      have hne : ¬ p.1 = 0 := by omega
      exact ⟨p.1, p.2, hpos, by simp [wrSubCall, hne]⟩
  · intro total maxLen reg idx f g ht hC hf
    obtain ⟨t, rfl⟩ : ∃ t, total = t + 1 := ⟨total - 1, by omega⟩
    have hcur1 : 1 ≤ min (t + 1) maxLen := le_min (Nat.succ_le_succ (Nat.zero_le t)) hC
    have hloop := rdSub_loop_ok (t + 1) maxLen reg f g hC hf (t + 1) (t + 1) idx
      le_rfl le_rfl
    have hcp : chunkPairs (t + 1) maxLen (t + 1) (t + 1) =
        (0, min (t + 1) maxLen) ::
          chunkPairs (t + 1) maxLen t (t + 1 - min (t + 1) maxLen) := by
      simp [chunkPairs]
    refine ⟨(chunkPairs (t + 1) maxLen t (t + 1 - min (t + 1) maxLen)).map
      (rdSubCall reg), rxOf g (chunkPairs (t + 1) maxLen (t + 1) (t + 1)), ?_, ?_⟩
    · rw [hloop, hcp]
      simp [rdSubCall, hcp]
    · intro e he
      simp only [List.mem_map] at he
      obtain ⟨p, hp, rfl⟩ := he
      have hpos := chunkPairs_offsets_pos (t + 1) maxLen t
        (t + 1 - min (t + 1) maxLen) (by omega) p hp
      have hne : ¬ p.1 = 0 := by omega
      exact ⟨p.1, p.2, hpos, by simp [rdSubCall, hne]⟩
  · intro total maxLen reg idx f g ht hC hf
    obtain ⟨t, rfl⟩ : ∃ t, total = t + 1 := ⟨total - 1, by omega⟩
    have hcur1 : 1 ≤ min (t + 1) maxLen := le_min (Nat.succ_le_succ (Nat.zero_le t)) hC
    have hloop := duplexSub_loop_ok (t + 1) maxLen reg f g hC hf (t + 1) (t + 1) idx
      le_rfl le_rfl
    have hcp : chunkPairs (t + 1) maxLen (t + 1) (t + 1) =
        (0, min (t + 1) maxLen) ::
          chunkPairs (t + 1) maxLen t (t + 1 - min (t + 1) maxLen) := by
      simp [chunkPairs]
    refine ⟨(chunkPairs (t + 1) maxLen t (t + 1 - min (t + 1) maxLen)).map
      (duplexSubCall reg), rxOf g (chunkPairs (t + 1) maxLen (t + 1) (t + 1)), ?_, ?_⟩
    · rw [hloop, hcp]
      simp [duplexSubCall, hcp]
    · intro e he
      simp only [List.mem_map] at he
      obtain ⟨p, hp, rfl⟩ := he
      have hpos := chunkPairs_offsets_pos (t + 1) maxLen t
        (t + 1 - min (t + 1) maxLen) (by omega) p hp
      have hne : ¬ p.1 = 0 := by omega
      exact ⟨p.1, p.2, hpos, by simp [duplexSubCall, hne]⟩
  · rfl

/-- Witness for C2 at a concrete input: `total = 5`, `maxLen = 3`. -/
theorem claim_c2_addr_prefix_once_witness :
    ∃ rest, hs_spi_write_data_sub_loop 3 5 32 (fun _ => 0) 5 5 0 =
        some (SpiEvent.ioctl [{ tx_buf := BufPtr.regAddr 32, len := 1 },
          { tx_buf := BufPtr.wr 0, len := min 5 3 }] :: rest, 0, true) ∧
      ∀ e ∈ rest, ∃ o l, 0 < o ∧
        e = SpiEvent.ioctl [{ tx_buf := BufPtr.wr o, len := l }] :=
  claim_c2_addr_prefix_once.1 5 3 32 0 (fun _ => 0) (by decide) (by decide)
    (fun _ => le_refl 0)

/-- The `memset(0)` + `memcpy` combination of the duplex operations yields
the caller's data followed by zero padding. -/
lemma memcpyList_replicate (wd : List Nat) (m tlen : Nat) (h : wd.length = m) :
    memcpyList (List.replicate tlen 0) wd m = wd ++ List.replicate (tlen - m) 0 := by
  subst h
  simp [memcpyList, List.take_length, List.drop_replicate]

/-- C3: a successful full-duplex transfer (with or without register address)
with `write_len ≠ read_len` uses the duplex payload length `max write_len
read_len`; the transmit scratch buffer holds the caller's data followed by
zeros up to that length, and the caller receives exactly the first `read_len`
bytes of the receive scratch buffer. -/
theorem claim_c3_duplex_lengths :
    (∀ (st : HsSpi) (wd rd : List Nat) (m n : Nat) (env : SpiEnv),
      m ≠ n → m ≠ 0 → n ≠ 0 → wd.length = m →
      0 ≤ st.fd → 1 ≤ st.max_transfer_len →
      env.mallocOk 0 = true → env.mallocOk 1 = true →
      0 ≤ (hs_spi_cs_control st true).1 → (∀ k, 0 ≤ env.ioctlRet k) →
      (hs_spi_write_read_data (some st) (some wd) m (some rd) n env).map
          (fun r => (r.ret, r.txWire, r.readOut)) =
        some (0, some (wd ++ List.replicate (max m n - m) 0),
          some (((List.range' 0 (max m n)).map env.rxByte).take n)) ∧
      (wd ++ List.replicate (max m n - m) 0).length = max m n ∧
      (((List.range' 0 (max m n)).map env.rxByte).take n).length = n) ∧
    (∀ (st : HsSpi) (reg : Nat) (wd rd : List Nat) (m n : Nat) (env : SpiEnv),
      m ≠ n → m ≠ 0 → n ≠ 0 → wd.length = m →
      0 ≤ st.fd → 1 ≤ st.max_transfer_len →
      env.mallocOk 0 = true → env.mallocOk 1 = true →
      0 ≤ (hs_spi_cs_control st true).1 → (∀ k, 0 ≤ env.ioctlRet k) →
      (hs_spi_write_read_data_sub (some st) reg (some wd) m (some rd) n env).map
          (fun r => (r.ret, r.txWire, r.readOut)) =
        some (0, some (wd ++ List.replicate (max m n - m) 0),
          some (((List.range' 0 (max m n)).map env.rxByte).take n)) ∧
      (wd ++ List.replicate (max m n - m) 0).length = max m n ∧
      (((List.range' 0 (max m n)).map env.rxByte).take n).length = n) := by
  constructor
  · intro st wd rd m n env hmn hm hn hwl hfd hmax hm0 hm1 hcs hio
    have hloop := duplex_loop_ok (max m n) st.max_transfer_len env.ioctlRet env.rxByte
      hmax hio (max m n) (max m n) 0 le_rfl
    have hacc := rxOf_chunkPairs (max m n) st.max_transfer_len env.rxByte hmax
      (max m n) (max m n) le_rfl le_rfl
    rw [Nat.sub_self] at hacc
    have hfd' : ¬ st.fd < 0 := not_lt.mpr hfd
    have hcs' : ¬ (hs_spi_cs_control st true).1 < 0 := not_lt.mpr hcs
    refine ⟨?_, ?_, ?_⟩
    · simp [hs_spi_write_read_data, hm, hn, hfd', hm0, hm1, hcs', hloop, hacc,
        memcpyList_replicate wd m (max m n) hwl]
    · simp [hwl]
    · simp [List.length_take, List.length_range']
  · intro st reg wd rd m n env hmn hm hn hwl hfd hmax hm0 hm1 hcs hio
    have hloop := duplexSub_loop_ok (max m n) st.max_transfer_len reg env.ioctlRet
      env.rxByte hmax hio (max m n) (max m n) 0 le_rfl le_rfl
    have hacc := rxOf_chunkPairs (max m n) st.max_transfer_len env.rxByte hmax
      (max m n) (max m n) le_rfl le_rfl
    rw [Nat.sub_self] at hacc
    have hfd' : ¬ st.fd < 0 := not_lt.mpr hfd
    have hcs' : ¬ (hs_spi_cs_control st true).1 < 0 := not_lt.mpr hcs
    refine ⟨?_, ?_, ?_⟩
    · simp [hs_spi_write_read_data_sub, hm, hn, hfd', hm0, hm1, hcs', hloop, hacc,
        memcpyList_replicate wd m (max m n) hwl]
    · simp [hwl]
    · simp [List.length_take, List.length_range']

/-- Witness for C3 at a concrete input: `write_len = 2`, `read_len = 5`,
chunk limit 4, identity device bytes. -/
theorem claim_c3_duplex_lengths_witness :
    (hs_spi_write_read_data (some { fd := 0, cs_control_cb := none, max_transfer_len := 4 })
        (some [11, 22]) 2 (some [0, 0, 0, 0, 0]) 5
        { ioctlRet := fun _ => 0, rxByte := fun i => i, mallocOk := fun _ => true }).map
        (fun r => (r.ret, r.txWire, r.readOut)) =
      some (0, some ([11, 22] ++ List.replicate (max 2 5 - 2) 0),
        some (((List.range' 0 (max 2 5)).map (fun i => i)).take 5)) :=
  (claim_c3_duplex_lengths.1 { fd := 0, cs_control_cb := none, max_transfer_len := 4 }
    [11, 22] [0, 0, 0, 0, 0] 2 5
    { ioctlRet := fun _ => 0, rxByte := fun i => i, mallocOk := fun _ => true }
    (by decide) (by decide) (by decide) (by decide) (by decide) (by decide)
    (by decide) (by decide) (by decide) (fun _ => le_refl 0)).1

/-- C8: setting the max chunk size to 0 is indistinguishable from setting it
to 4096 — the 0→4096 substitution happens at write time — so the handle state
and every subsequent transfer (here `hs_spi_write_data`, whose segmentation
reads only the stored value) coincide. -/
theorem claim_c8_zero_means_default :
    (∀ st : HsSpi, hs_spi_set_max_transfer_len (some st) 0 =
      hs_spi_set_max_transfer_len (some st) 4096) ∧
    (∀ st : HsSpi, hs_spi_set_max_transfer_len (some st) 0 =
      (0, some { st with max_transfer_len := 4096 })) ∧
    (∀ (st : HsSpi) (wd : Option (List Nat)) (len : Nat) (env : SpiEnv),
      hs_spi_write_data (hs_spi_set_max_transfer_len (some st) 0).2 wd len env =
      hs_spi_write_data (hs_spi_set_max_transfer_len (some st) 4096).2 wd len env) :=
  ⟨fun _ => rfl, fun _ => rfl, fun _ _ _ _ => rfl⟩

/-- C9: in every handle state reachable from `hs_spi_create` by public
operations, an open descriptor implies a strictly positive
`max_transfer_len`, which is exactly the situation in which the transfer
engine reads it (it checks `fd` first). -/
theorem claim_c9_open_implies_chunk_pos (st : HsSpi) (h : Reachable st)
    (hfd : 0 ≤ st.fd) : 0 < st.max_transfer_len :=
  reachable_max_pos st h hfd

/-- Witness for C9: the state reached by a successful initialisation of a
fresh handle is reachable, has an open descriptor, and positive chunk
size. -/
theorem claim_c9_open_implies_chunk_pos_witness :
    Reachable { fd := 3, cs_control_cb := none, max_transfer_len := 4096 } ∧
    (0 : Int) ≤ ({ fd := 3, cs_control_cb := none, max_transfer_len := 4096 } : HsSpi).fd ∧
    0 < ({ fd := 3, cs_control_cb := none, max_transfer_len := 4096 } : HsSpi).max_transfer_len := by
  have hre : Reachable { fd := 3, cs_control_cb := none, max_transfer_len := 4096 } :=
    Reachable.init hs_spi_create _ (some "spidev0.0")
      { openRet := 3, cfgRet := fun _ => 0 } 0 _ Reachable.created rfl
  exact ⟨hre, by decide, claim_c9_open_implies_chunk_pos _ hre (by decide)⟩

/-- C10: none of the six transfer operations modifies the handle: on every
path (success and every failure) the state in the result is the input
state. -/
theorem claim_c10_transfers_preserve_state :
    (∀ (st : HsSpi) (wd : Option (List Nat)) (n : Nat) (env : SpiEnv) (r : SpiRes),
      hs_spi_write_data (some st) wd n env = some r → r.state = some st) ∧
    (∀ (st : HsSpi) (rd : Option (List Nat)) (n : Nat) (env : SpiEnv) (r : SpiRes),
      hs_spi_read_data (some st) rd n env = some r → r.state = some st) ∧
    (∀ (st : HsSpi) (wd rd : Option (List Nat)) (m n : Nat) (env : SpiEnv) (r : SpiRes),
      hs_spi_write_read_data (some st) wd m rd n env = some r → r.state = some st) ∧
    (∀ (st : HsSpi) (reg : Nat) (wd : Option (List Nat)) (n : Nat) (env : SpiEnv)
      (r : SpiRes),
      hs_spi_write_data_sub (some st) reg wd n env = some r → r.state = some st) ∧
    (∀ (st : HsSpi) (reg : Nat) (rd : Option (List Nat)) (n : Nat) (env : SpiEnv)
      (r : SpiRes),
      hs_spi_read_data_sub (some st) reg rd n env = some r → r.state = some st) ∧
    (∀ (st : HsSpi) (reg : Nat) (wd rd : Option (List Nat)) (m n : Nat) (env : SpiEnv)
      (r : SpiRes),
      hs_spi_write_read_data_sub (some st) reg wd m rd n env = some r →
        r.state = some st) :=
  ⟨hs_spi_write_data_state, hs_spi_read_data_state, hs_spi_write_read_data_state,
   hs_spi_write_data_sub_state, hs_spi_read_data_sub_state,
   hs_spi_write_read_data_sub_state⟩

/-- Witness for C10: a concrete successful write leaves the handle state
untouched. -/
theorem claim_c10_transfers_preserve_state_witness :
    hs_spi_write_data (some { fd := 0, cs_control_cb := none, max_transfer_len := 4 })
        (some [1, 2]) 2
        { ioctlRet := fun _ => 0, rxByte := fun _ => 0, mallocOk := fun _ => true } =
      some ((hs_spi_write_data
        (some { fd := 0, cs_control_cb := none, max_transfer_len := 4 }) (some [1, 2]) 2
        { ioctlRet := fun _ => 0, rxByte := fun _ => 0,
          mallocOk := fun _ => true }).getD default) ∧
    ((hs_spi_write_data (some { fd := 0, cs_control_cb := none, max_transfer_len := 4 })
        (some [1, 2]) 2
        { ioctlRet := fun _ => 0, rxByte := fun _ => 0,
          mallocOk := fun _ => true }).getD default).state =
      some { fd := 0, cs_control_cb := none, max_transfer_len := 4 } :=
  ⟨rfl, claim_c10_transfers_preserve_state.1
    { fd := 0, cs_control_cb := none, max_transfer_len := 4 } (some [1, 2]) 2
    { ioctlRet := fun _ => 0, rxByte := fun _ => 0, mallocOk := fun _ => true } _ rfl⟩

/-- C6: for each of the six transfer operations, each violated precondition
(null handle, null buffer, zero length) returns its own distinct negative
code with an empty event trace — before the lock or any other resource is
touched; once the preconditions pass, every produced trace begins with
`lock` followed by the descriptor check; and a closed descriptor fails that
check (after the lock) with its own distinct code. -/
theorem claim_c6_precondition_order :
    ((∀ (wd : Option (List Nat)) (n : Nat) (env : SpiEnv),
        hs_spi_write_data none wd n env =
          some { ret := -1, events := [], state := none }) ∧
      (∀ (st : HsSpi) (n : Nat) (env : SpiEnv),
        hs_spi_write_data (some st) none n env =
          some { ret := -2, events := [], state := some st }) ∧
      (∀ (st : HsSpi) (wd : List Nat) (env : SpiEnv),
        hs_spi_write_data (some st) (some wd) 0 env =
          some { ret := -3, events := [], state := some st }) ∧
      (∀ (st : HsSpi) (wd : List Nat) (n : Nat) (env : SpiEnv) (r : SpiRes), n ≠ 0 →
        hs_spi_write_data (some st) (some wd) n env = some r →
        r.events.take 2 = [SpiEvent.lock, SpiEvent.fdCheck]) ∧
      (∀ (st : HsSpi) (wd : List Nat) (n : Nat) (env : SpiEnv) (r : SpiRes), n ≠ 0 →
        st.fd < 0 → hs_spi_write_data (some st) (some wd) n env = some r →
        r.ret = -4 ∧
          r.events = [SpiEvent.lock, SpiEvent.fdCheck, SpiEvent.unlock])) ∧
    ((∀ (rd : Option (List Nat)) (n : Nat) (env : SpiEnv),
        hs_spi_read_data none rd n env =
          some { ret := -1, events := [], state := none }) ∧
      (∀ (st : HsSpi) (n : Nat) (env : SpiEnv),
        hs_spi_read_data (some st) none n env =
          some { ret := -2, events := [], state := some st }) ∧
      (∀ (st : HsSpi) (rd : List Nat) (env : SpiEnv),
        hs_spi_read_data (some st) (some rd) 0 env =
          some { ret := -3, events := [], state := some st }) ∧
      (∀ (st : HsSpi) (rd : List Nat) (n : Nat) (env : SpiEnv) (r : SpiRes), n ≠ 0 →
        hs_spi_read_data (some st) (some rd) n env = some r →
        r.events.take 2 = [SpiEvent.lock, SpiEvent.fdCheck]) ∧
      (∀ (st : HsSpi) (rd : List Nat) (n : Nat) (env : SpiEnv) (r : SpiRes), n ≠ 0 →
        st.fd < 0 → hs_spi_read_data (some st) (some rd) n env = some r →
        r.ret = -4 ∧
          r.events = [SpiEvent.lock, SpiEvent.fdCheck, SpiEvent.unlock])) ∧
    ((∀ (wd rd : Option (List Nat)) (m n : Nat) (env : SpiEnv),
        hs_spi_write_read_data none wd m rd n env =
          some { ret := -1, events := [], state := none }) ∧
      (∀ (st : HsSpi) (rd : Option (List Nat)) (m n : Nat) (env : SpiEnv),
        hs_spi_write_read_data (some st) none m rd n env =
          some { ret := -2, events := [], state := some st }) ∧
      (∀ (st : HsSpi) (wd : List Nat) (rd : Option (List Nat)) (n : Nat) (env : SpiEnv),
        hs_spi_write_read_data (some st) (some wd) 0 rd n env =
          some { ret := -3, events := [], state := some st }) ∧
      (∀ (st : HsSpi) (wd : List Nat) (m n : Nat) (env : SpiEnv), m ≠ 0 →
        hs_spi_write_read_data (some st) (some wd) m none n env =
          some { ret := -4, events := [], state := some st }) ∧
      (∀ (st : HsSpi) (wd rd : List Nat) (m : Nat) (env : SpiEnv), m ≠ 0 →
        hs_spi_write_read_data (some st) (some wd) m (some rd) 0 env =
          some { ret := -5, events := [], state := some st }) ∧
      (∀ (st : HsSpi) (wd rd : List Nat) (m n : Nat) (env : SpiEnv) (r : SpiRes),
        m ≠ 0 → n ≠ 0 →
        hs_spi_write_read_data (some st) (some wd) m (some rd) n env = some r →
        r.events.take 2 = [SpiEvent.lock, SpiEvent.fdCheck]) ∧
      (∀ (st : HsSpi) (wd rd : List Nat) (m n : Nat) (env : SpiEnv) (r : SpiRes),
        m ≠ 0 → n ≠ 0 → st.fd < 0 →
        hs_spi_write_read_data (some st) (some wd) m (some rd) n env = some r →
        r.ret = -6 ∧
          r.events = [SpiEvent.lock, SpiEvent.fdCheck, SpiEvent.unlock])) ∧
    ((∀ (reg : Nat) (wd : Option (List Nat)) (n : Nat) (env : SpiEnv),
        hs_spi_write_data_sub none reg wd n env =
          some { ret := -1, events := [], state := none }) ∧
      (∀ (st : HsSpi) (reg : Nat) (n : Nat) (env : SpiEnv),
        hs_spi_write_data_sub (some st) reg none n env =
          some { ret := -2, events := [], state := some st }) ∧
      (∀ (st : HsSpi) (reg : Nat) (wd : List Nat) (env : SpiEnv),
        hs_spi_write_data_sub (some st) reg (some wd) 0 env =
          some { ret := -3, events := [], state := some st }) ∧
      (∀ (st : HsSpi) (reg : Nat) (wd : List Nat) (n : Nat) (env : SpiEnv) (r : SpiRes),
        n ≠ 0 → hs_spi_write_data_sub (some st) reg (some wd) n env = some r →
        r.events.take 2 = [SpiEvent.lock, SpiEvent.fdCheck]) ∧
      (∀ (st : HsSpi) (reg : Nat) (wd : List Nat) (n : Nat) (env : SpiEnv) (r : SpiRes),
        n ≠ 0 → st.fd < 0 →
        hs_spi_write_data_sub (some st) reg (some wd) n env = some r →
        r.ret = -4 ∧
          r.events = [SpiEvent.lock, SpiEvent.fdCheck, SpiEvent.unlock])) ∧
    ((∀ (reg : Nat) (rd : Option (List Nat)) (n : Nat) (env : SpiEnv),
        hs_spi_read_data_sub none reg rd n env =
          some { ret := -1, events := [], state := none }) ∧
      (∀ (st : HsSpi) (reg : Nat) (n : Nat) (env : SpiEnv),
        hs_spi_read_data_sub (some st) reg none n env =
          some { ret := -2, events := [], state := some st }) ∧
      (∀ (st : HsSpi) (reg : Nat) (rd : List Nat) (env : SpiEnv),
        hs_spi_read_data_sub (some st) reg (some rd) 0 env =
          some { ret := -3, events := [], state := some st }) ∧
      (∀ (st : HsSpi) (reg : Nat) (rd : List Nat) (n : Nat) (env : SpiEnv) (r : SpiRes),
        n ≠ 0 → hs_spi_read_data_sub (some st) reg (some rd) n env = some r →
        r.events.take 2 = [SpiEvent.lock, SpiEvent.fdCheck]) ∧
      (∀ (st : HsSpi) (reg : Nat) (rd : List Nat) (n : Nat) (env : SpiEnv) (r : SpiRes),
        n ≠ 0 → st.fd < 0 →
        hs_spi_read_data_sub (some st) reg (some rd) n env = some r →
        r.ret = -4 ∧
          r.events = [SpiEvent.lock, SpiEvent.fdCheck, SpiEvent.unlock])) ∧
    ((∀ (reg : Nat) (wd rd : Option (List Nat)) (m n : Nat) (env : SpiEnv),
        hs_spi_write_read_data_sub none reg wd m rd n env =
          some { ret := -1, events := [], state := none }) ∧
      (∀ (st : HsSpi) (reg : Nat) (rd : Option (List Nat)) (m n : Nat) (env : SpiEnv),
        hs_spi_write_read_data_sub (some st) reg none m rd n env =
          some { ret := -2, events := [], state := some st }) ∧
      (∀ (st : HsSpi) (reg : Nat) (wd : List Nat) (rd : Option (List Nat)) (n : Nat)
        (env : SpiEnv),
        hs_spi_write_read_data_sub (some st) reg (some wd) 0 rd n env =
          some { ret := -3, events := [], state := some st }) ∧
      (∀ (st : HsSpi) (reg : Nat) (wd : List Nat) (m n : Nat) (env : SpiEnv), m ≠ 0 →
        hs_spi_write_read_data_sub (some st) reg (some wd) m none n env =
          some { ret := -4, events := [], state := some st }) ∧
      (∀ (st : HsSpi) (reg : Nat) (wd rd : List Nat) (m : Nat) (env : SpiEnv), m ≠ 0 →
        hs_spi_write_read_data_sub (some st) reg (some wd) m (some rd) 0 env =
          some { ret := -5, events := [], state := some st }) ∧
      (∀ (st : HsSpi) (reg : Nat) (wd rd : List Nat) (m n : Nat) (env : SpiEnv)
        (r : SpiRes), m ≠ 0 → n ≠ 0 →
        hs_spi_write_read_data_sub (some st) reg (some wd) m (some rd) n env = some r →
        r.events.take 2 = [SpiEvent.lock, SpiEvent.fdCheck]) ∧
      (∀ (st : HsSpi) (reg : Nat) (wd rd : List Nat) (m n : Nat) (env : SpiEnv)
        (r : SpiRes), m ≠ 0 → n ≠ 0 → st.fd < 0 →
        hs_spi_write_read_data_sub (some st) reg (some wd) m (some rd) n env = some r →
        r.ret = -6 ∧
          r.events = [SpiEvent.lock, SpiEvent.fdCheck, SpiEvent.unlock])) := by
  refine ⟨⟨fun _ _ _ => rfl, fun _ _ _ => rfl, fun _ _ _ => rfl, ?_, ?_⟩,
    ⟨fun _ _ _ => rfl, fun _ _ _ => rfl, fun _ _ _ => rfl, ?_, ?_⟩,
    ⟨fun _ _ _ _ _ => rfl, fun _ _ _ _ _ => rfl, fun _ _ _ _ _ => rfl,
      fun _ _ _ _ _ hm => by simp [hs_spi_write_read_data, hm],
      fun _ _ _ _ _ hm => by simp [hs_spi_write_read_data, hm], ?_, ?_⟩,
    ⟨fun _ _ _ _ => rfl, fun _ _ _ _ => rfl, fun _ _ _ _ => rfl, ?_, ?_⟩,
    ⟨fun _ _ _ _ => rfl, fun _ _ _ _ => rfl, fun _ _ _ _ => rfl, ?_, ?_⟩,
    ⟨fun _ _ _ _ _ _ => rfl, fun _ _ _ _ _ _ => rfl, fun _ _ _ _ _ _ => rfl,
      fun _ _ _ _ _ _ hm => by simp [hs_spi_write_read_data_sub, hm],
      fun _ _ _ _ _ _ hm => by simp [hs_spi_write_read_data_sub, hm], ?_, ?_⟩⟩
  · intro st wd n env r hn h
    rcases hs_spi_write_data_shape st wd n env r hn h with
      ⟨-, -, hev⟩ | ⟨-, -, -, hev⟩ | ⟨-, -, evs, rem, ok, -, -, -, hev⟩
    all_goals rw [hev]
    all_goals rfl
  · intro st wd n env r hn hfd h
    rcases hs_spi_write_data_shape st wd n env r hn h with
      ⟨-, hret, hev⟩ | ⟨hge, -, -, -⟩ | ⟨hge, -, -⟩
    · exact ⟨hret, hev⟩
    · omega
    · omega
  · intro st rd n env r hn h
    rcases hs_spi_read_data_shape st rd n env r hn h with
      ⟨-, -, hev⟩ | ⟨-, -, -, hev⟩ | ⟨-, -, evs, rem, ok, acc, -, -, -, hev⟩
    all_goals rw [hev]
    all_goals rfl
  · intro st rd n env r hn hfd h
    rcases hs_spi_read_data_shape st rd n env r hn h with
      ⟨-, hret, hev⟩ | ⟨hge, -, -, -⟩ | ⟨hge, -, -⟩
    · exact ⟨hret, hev⟩
    · omega
    · omega
  · intro st wd rd m n env r hm hn h
    rcases hs_spi_write_read_data_shape st wd rd m n env r hm hn h with
      ⟨-, -, hev⟩ | ⟨-, -, -, hev⟩ | ⟨-, -, -, -, hev⟩ | ⟨-, -, -, -, -, hev⟩ |
      ⟨-, -, -, -, evs, rem, ok, acc, -, -, -, hev⟩
    all_goals rw [hev]
    all_goals rfl
  · intro st wd rd m n env r hm hn hfd h
    rcases hs_spi_write_read_data_shape st wd rd m n env r hm hn h with
      ⟨-, hret, hev⟩ | ⟨hge, -, -, -⟩ | ⟨hge, -, -, -, -⟩ | ⟨hge, -, -, -, -, -⟩ |
      ⟨hge, -, -, -, -⟩
    · exact ⟨hret, hev⟩
    all_goals omega
  · intro st reg wd n env r hn h
    rcases hs_spi_write_data_sub_shape st reg wd n env r hn h with
      ⟨-, -, hev⟩ | ⟨-, -, -, hev⟩ | ⟨-, -, evs, rem, ok, -, -, -, hev⟩
    all_goals rw [hev]
    all_goals rfl
  · intro st reg wd n env r hn hfd h
    rcases hs_spi_write_data_sub_shape st reg wd n env r hn h with
      ⟨-, hret, hev⟩ | ⟨hge, -, -, -⟩ | ⟨hge, -, -⟩
    · exact ⟨hret, hev⟩
    · omega
    · omega
  · intro st reg rd n env r hn h
    rcases hs_spi_read_data_sub_shape st reg rd n env r hn h with
      ⟨-, -, hev⟩ | ⟨-, -, -, hev⟩ | ⟨-, -, evs, rem, ok, acc, -, -, -, hev⟩
    all_goals rw [hev]
    all_goals rfl
  · intro st reg rd n env r hn hfd h
    rcases hs_spi_read_data_sub_shape st reg rd n env r hn h with
      ⟨-, hret, hev⟩ | ⟨hge, -, -, -⟩ | ⟨hge, -, -⟩
    · exact ⟨hret, hev⟩
    · omega
    · omega
  · intro st reg wd rd m n env r hm hn h
    rcases hs_spi_write_read_data_sub_shape st reg wd rd m n env r hm hn h with
      ⟨-, -, hev⟩ | ⟨-, -, -, hev⟩ | ⟨-, -, -, -, hev⟩ | ⟨-, -, -, -, -, hev⟩ |
      ⟨-, -, -, -, evs, rem, ok, acc, -, -, -, hev⟩
    all_goals rw [hev]
    all_goals rfl
  · intro st reg wd rd m n env r hm hn hfd h
    rcases hs_spi_write_read_data_sub_shape st reg wd rd m n env r hm hn h with
      ⟨-, hret, hev⟩ | ⟨hge, -, -, -⟩ | ⟨hge, -, -, -, -⟩ | ⟨hge, -, -, -, -, -⟩ |
      ⟨hge, -, -, -, -⟩
    · exact ⟨hret, hev⟩
    all_goals omega

/-- Witness for C6: a concrete write past its preconditions produces a trace
beginning with the lock and then the descriptor check. -/
theorem claim_c6_precondition_order_witness :
    ((hs_spi_write_data (some { fd := 0, cs_control_cb := none, max_transfer_len := 4 })
        (some [1]) 1
        { ioctlRet := fun _ => 0, rxByte := fun _ => 0, mallocOk := fun _ => true }).getD
        default).events.take 2 = [SpiEvent.lock, SpiEvent.fdCheck] :=
  claim_c6_precondition_order.1.2.2.2.1
    { fd := 0, cs_control_cb := none, max_transfer_len := 4 } [1] 1
    { ioctlRet := fun _ => 0, rxByte := fun _ => 0, mallocOk := fun _ => true } _
    (by decide) rfl

/-- C7: `hs_spi_init` follows close-then-try-open semantics.  A previously
open descriptor is closed (trace order: lock, close of the old descriptor,
then the open attempt); with no previous descriptor nothing is closed before
the open.  A failed open returns -3 and leaves the handle with no open
descriptor.  A failure at configuration step k returns the distinct code
-(4+k), closes the newly opened descriptor and leaves the handle with no open
descriptor.  On full success the descriptor is replaced and a previously
unset (0) chunk size becomes the default 4096. -/
theorem claim_c7_init_close_then_open :
    (∀ (st : HsSpi) (name : String) (env : InitEnv), st.fd ≠ -1 →
      (hs_spi_init (some st) (some name) env).2.2.take 3 =
        [SpiEvent.lock, SpiEvent.closeDev st.fd, SpiEvent.openDev env.openRet]) ∧
    (∀ (st : HsSpi) (name : String) (env : InitEnv), st.fd = -1 →
      (hs_spi_init (some st) (some name) env).2.2.take 2 =
        [SpiEvent.lock, SpiEvent.openDev env.openRet]) ∧
    (∀ (st : HsSpi) (name : String) (env : InitEnv), env.openRet < 0 →
      (hs_spi_init (some st) (some name) env).1 = -3 ∧
      ((hs_spi_init (some st) (some name) env).2.1).map (fun s => s.fd) = some (-1)) ∧
    (∀ (st : HsSpi) (name : String) (env : InitEnv) (k : Nat), k < 6 →
      0 ≤ env.openRet → (∀ j, j < k → 0 ≤ env.cfgRet j) → env.cfgRet k < 0 →
      (hs_spi_init (some st) (some name) env).1 = -4 - (k : Int) ∧
      ((hs_spi_init (some st) (some name) env).2.1).map (fun s => s.fd) = some (-1) ∧
      SpiEvent.closeDev env.openRet ∈ (hs_spi_init (some st) (some name) env).2.2) ∧
    (∀ (st : HsSpi) (name : String) (env : InitEnv),
      0 ≤ env.openRet → (∀ j, j < 6 → 0 ≤ env.cfgRet j) →
      hs_spi_init (some st) (some name) env =
        (0, some { fd := env.openRet, cs_control_cb := st.cs_control_cb,
                   max_transfer_len := if st.max_transfer_len = 0 then 4096
                                       else st.max_transfer_len },
         (hs_spi_init (some st) (some name) env).2.2)) := by
  refine ⟨?_, ?_, ?_, ?_, ?_⟩
  · intro st name env hne
    simp only [hs_spi_init, if_pos hne]
    repeat' split
    all_goals rfl
  · intro st name env heq
    have hne : ¬ st.fd ≠ -1 := by omega
    simp only [hs_spi_init, if_neg hne]
    repeat' split
    all_goals rfl
  · intro st name env hopen
    by_cases hne : st.fd ≠ -1
    · simp [hs_spi_init, hne, hopen]
    · push_neg at hne
      simp [hs_spi_init, hne, hopen]
  · intro st name env k hk hopen hprev hfail
    have hopen' : ¬ env.openRet < 0 := not_lt.mpr hopen
    interval_cases k
    all_goals (
      (try have h0 : ¬ env.cfgRet 0 < 0 := not_lt.mpr (hprev 0 (by omega)))
      (try have h1 : ¬ env.cfgRet 1 < 0 := not_lt.mpr (hprev 1 (by omega)))
      (try have h2 : ¬ env.cfgRet 2 < 0 := not_lt.mpr (hprev 2 (by omega)))
      (try have h3 : ¬ env.cfgRet 3 < 0 := not_lt.mpr (hprev 3 (by omega)))
      (try have h4 : ¬ env.cfgRet 4 < 0 := not_lt.mpr (hprev 4 (by omega)))
      by_cases hne : st.fd ≠ -1
      · simp [hs_spi_init, hne, hopen', hfail, *]
      · push_neg at hne
        simp [hs_spi_init, hne, hopen', hfail, *])
  · intro st name env hopen hcfg
    have hopen' : ¬ env.openRet < 0 := not_lt.mpr hopen
    have c0 : ¬ env.cfgRet 0 < 0 := not_lt.mpr (hcfg 0 (by omega))
    have c1 : ¬ env.cfgRet 1 < 0 := not_lt.mpr (hcfg 1 (by omega))
    have c2 : ¬ env.cfgRet 2 < 0 := not_lt.mpr (hcfg 2 (by omega))
    have c3 : ¬ env.cfgRet 3 < 0 := not_lt.mpr (hcfg 3 (by omega))
    have c4 : ¬ env.cfgRet 4 < 0 := not_lt.mpr (hcfg 4 (by omega))
    have c5 : ¬ env.cfgRet 5 < 0 := not_lt.mpr (hcfg 5 (by omega))
    by_cases hne : st.fd ≠ -1
    · simp [hs_spi_init, hne, hopen', c0, c1, c2, c3, c4, c5]
    · push_neg at hne
      simp [hs_spi_init, hne, hopen', c0, c1, c2, c3, c4, c5]

/-- Witness for C7: with an open descriptor 7, a failing open attempt
(result -9) returns -3 and leaves the handle closed. -/
theorem claim_c7_init_close_then_open_witness :
    ((-9 : Int) < 0) ∧
    (hs_spi_init (some { fd := 7, cs_control_cb := none, max_transfer_len := 0 })
        (some "spidev0.0") { openRet := -9, cfgRet := fun _ => 0 }).1 = -3 ∧
    ((hs_spi_init (some { fd := 7, cs_control_cb := none, max_transfer_len := 0 })
        (some "spidev0.0") { openRet := -9, cfgRet := fun _ => 0 }).2.1).map
      (fun s => s.fd) = some (-1) :=
  ⟨by decide,
   claim_c7_init_close_then_open.2.2.1
     { fd := 7, cs_control_cb := none, max_transfer_len := 0 } "spidev0.0"
     { openRet := -9, cfgRet := fun _ => 0 } (by decide)⟩

/-- With a configured callback, the trace of a simple transfer that entered
its loop invokes the callback exactly twice: assert then de-assert. -/
lemma csInv_trace_cb (st : HsSpi) (f : Bool → Int) (hcb : st.cs_control_cb = some f)
    (evs : List SpiEvent) (hevs : csInvocations evs = []) :
    csInvocations (SpiEvent.lock :: SpiEvent.fdCheck :: (hs_spi_cs_control st true).2 ::
      (evs ++ [(hs_spi_cs_control st false).2, SpiEvent.unlock])) = [true, false] := by
  simp only [csInvocations] at hevs
  simp [csInvocations, hs_spi_cs_control, hcb, hevs]

/-- Duplex variant of `csInv_trace_cb` (two allocation events in front). -/
lemma csInv_trace_duplex_cb (st : HsSpi) (f : Bool → Int)
    (hcb : st.cs_control_cb = some f)
    (evs : List SpiEvent) (hevs : csInvocations evs = []) :
    csInvocations (SpiEvent.lock :: SpiEvent.fdCheck :: SpiEvent.allocTx true ::
      SpiEvent.allocRx true :: (hs_spi_cs_control st true).2 ::
      (evs ++ [(hs_spi_cs_control st false).2, SpiEvent.unlock])) = [true, false] := by
  simp only [csInvocations] at hevs
  simp [csInvocations, hs_spi_cs_control, hcb, hevs]

/-- With a configured callback, a transfer aborted by the assertion itself
invokes the callback exactly once (with enable = true). -/
lemma csInv_csfail_cb (st : HsSpi) (f : Bool → Int) (hcb : st.cs_control_cb = some f) :
    csInvocations [SpiEvent.lock, SpiEvent.fdCheck, (hs_spi_cs_control st true).2,
      SpiEvent.unlock] = [true] := by
  simp [csInvocations, hs_spi_cs_control, hcb]

/-- Duplex variant of `csInv_csfail_cb`. -/
lemma csInv_csfail_duplex_cb (st : HsSpi) (f : Bool → Int)
    (hcb : st.cs_control_cb = some f) :
    csInvocations [SpiEvent.lock, SpiEvent.fdCheck, SpiEvent.allocTx true,
      SpiEvent.allocRx true, (hs_spi_cs_control st true).2, SpiEvent.unlock] = [true] := by
  simp [csInvocations, hs_spi_cs_control, hcb]

/-- Without a configured callback, a full simple-transfer trace contains no
callback invocation. -/
lemma csInv_trace_none (st : HsSpi) (hcb : st.cs_control_cb = none)
    (evs : List SpiEvent) (hevs : csInvocations evs = []) :
    csInvocations (SpiEvent.lock :: SpiEvent.fdCheck :: (hs_spi_cs_control st true).2 ::
      (evs ++ [(hs_spi_cs_control st false).2, SpiEvent.unlock])) = [] := by
  simp only [csInvocations] at hevs
  simp [csInvocations, hs_spi_cs_control, hcb, hevs]

/-- Duplex variant of `csInv_trace_none`. -/
lemma csInv_trace_duplex_none (st : HsSpi) (hcb : st.cs_control_cb = none)
    (evs : List SpiEvent) (hevs : csInvocations evs = []) :
    csInvocations (SpiEvent.lock :: SpiEvent.fdCheck :: SpiEvent.allocTx true ::
      SpiEvent.allocRx true :: (hs_spi_cs_control st true).2 ::
      (evs ++ [(hs_spi_cs_control st false).2, SpiEvent.unlock])) = [] := by
  simp only [csInvocations] at hevs
  simp [csInvocations, hs_spi_cs_control, hcb, hevs]

/-- C4 counterexample: a transfer whose configured callback fails the
assertion reaches the assertion step but invokes the callback exactly once
(with enable = true), not twice as the claim states; the operation returns
the chip-select error code -5. -/
theorem claim_c4_counterexample :
    (hs_spi_write_data
        (some { fd := 0, cs_control_cb := some (fun _ => -1), max_transfer_len := 4 })
        (some [1]) 1
        { ioctlRet := fun _ => 0, rxByte := fun _ => 0, mallocOk := fun _ => true }).map
      (fun r => (r.ret, csInvocations r.events)) = some (-5, [true]) ∧
    ([true] : List Bool) ≠ [true, false] :=
  ⟨rfl, by decide⟩

/-- C4 (amended): with a chip-select callback configured, each transfer
operation invokes it exactly twice — enable = true then enable = false —
whenever the assertion call succeeds, regardless of later native-call
failures; exactly once (enable = true) when the assertion call itself fails;
and zero times when the operation stops before the assertion (closed
descriptor, or a failed scratch allocation in the duplex operations).  With
no callback configured, no invocation ever happens and the operation never
returns the chip-select error code (-5, or -9 for the duplex operations). -/
theorem claim_c4_cs_invocations :
    ((∀ (st : HsSpi) (f : Bool → Int) (wd : List Nat) (n : Nat) (env : SpiEnv)
        (r : SpiRes), st.cs_control_cb = some f → n ≠ 0 →
        hs_spi_write_data (some st) (some wd) n env = some r →
        (0 ≤ st.fd → 0 ≤ f true → csInvocations r.events = [true, false]) ∧
        (0 ≤ st.fd → f true < 0 → csInvocations r.events = [true]) ∧
        (st.fd < 0 → csInvocations r.events = [])) ∧
      (∀ (st : HsSpi) (wd : List Nat) (n : Nat) (env : SpiEnv) (r : SpiRes),
        st.cs_control_cb = none → n ≠ 0 →
        hs_spi_write_data (some st) (some wd) n env = some r →
        csInvocations r.events = [] ∧ r.ret ≠ -5)) ∧
    ((∀ (st : HsSpi) (f : Bool → Int) (rd : List Nat) (n : Nat) (env : SpiEnv)
        (r : SpiRes), st.cs_control_cb = some f → n ≠ 0 →
        hs_spi_read_data (some st) (some rd) n env = some r →
        (0 ≤ st.fd → 0 ≤ f true → csInvocations r.events = [true, false]) ∧
        (0 ≤ st.fd → f true < 0 → csInvocations r.events = [true]) ∧
        (st.fd < 0 → csInvocations r.events = [])) ∧
      (∀ (st : HsSpi) (rd : List Nat) (n : Nat) (env : SpiEnv) (r : SpiRes),
        st.cs_control_cb = none → n ≠ 0 →
        hs_spi_read_data (some st) (some rd) n env = some r →
        csInvocations r.events = [] ∧ r.ret ≠ -5)) ∧
    ((∀ (st : HsSpi) (f : Bool → Int) (reg : Nat) (wd : List Nat) (n : Nat)
        (env : SpiEnv) (r : SpiRes), st.cs_control_cb = some f → n ≠ 0 →
        hs_spi_write_data_sub (some st) reg (some wd) n env = some r →
        (0 ≤ st.fd → 0 ≤ f true → csInvocations r.events = [true, false]) ∧
        (0 ≤ st.fd → f true < 0 → csInvocations r.events = [true]) ∧
        (st.fd < 0 → csInvocations r.events = [])) ∧
      (∀ (st : HsSpi) (reg : Nat) (wd : List Nat) (n : Nat) (env : SpiEnv) (r : SpiRes),
        st.cs_control_cb = none → n ≠ 0 →
        hs_spi_write_data_sub (some st) reg (some wd) n env = some r →
        csInvocations r.events = [] ∧ r.ret ≠ -5)) ∧
    ((∀ (st : HsSpi) (f : Bool → Int) (reg : Nat) (rd : List Nat) (n : Nat)
        (env : SpiEnv) (r : SpiRes), st.cs_control_cb = some f → n ≠ 0 →
        hs_spi_read_data_sub (some st) reg (some rd) n env = some r →
        (0 ≤ st.fd → 0 ≤ f true → csInvocations r.events = [true, false]) ∧
        (0 ≤ st.fd → f true < 0 → csInvocations r.events = [true]) ∧
        (st.fd < 0 → csInvocations r.events = [])) ∧
      (∀ (st : HsSpi) (reg : Nat) (rd : List Nat) (n : Nat) (env : SpiEnv) (r : SpiRes),
        st.cs_control_cb = none → n ≠ 0 →
        hs_spi_read_data_sub (some st) reg (some rd) n env = some r →
        csInvocations r.events = [] ∧ r.ret ≠ -5)) ∧
    ((∀ (st : HsSpi) (f : Bool → Int) (wd rd : List Nat) (m n : Nat) (env : SpiEnv)
        (r : SpiRes), st.cs_control_cb = some f → m ≠ 0 → n ≠ 0 →
        hs_spi_write_read_data (some st) (some wd) m (some rd) n env = some r →
        (0 ≤ st.fd → env.mallocOk 0 = true → env.mallocOk 1 = true → 0 ≤ f true →
          csInvocations r.events = [true, false]) ∧
        (0 ≤ st.fd → env.mallocOk 0 = true → env.mallocOk 1 = true → f true < 0 →
          csInvocations r.events = [true]) ∧
        (st.fd < 0 → csInvocations r.events = []) ∧
        (env.mallocOk 0 = false → csInvocations r.events = []) ∧
        (env.mallocOk 1 = false → csInvocations r.events = [])) ∧
      (∀ (st : HsSpi) (wd rd : List Nat) (m n : Nat) (env : SpiEnv) (r : SpiRes),
        st.cs_control_cb = none → m ≠ 0 → n ≠ 0 →
        hs_spi_write_read_data (some st) (some wd) m (some rd) n env = some r →
        csInvocations r.events = [] ∧ r.ret ≠ -9)) ∧
    ((∀ (st : HsSpi) (f : Bool → Int) (reg : Nat) (wd rd : List Nat) (m n : Nat)
        (env : SpiEnv) (r : SpiRes), st.cs_control_cb = some f → m ≠ 0 → n ≠ 0 →
        hs_spi_write_read_data_sub (some st) reg (some wd) m (some rd) n env = some r →
        (0 ≤ st.fd → env.mallocOk 0 = true → env.mallocOk 1 = true → 0 ≤ f true →
          csInvocations r.events = [true, false]) ∧
        (0 ≤ st.fd → env.mallocOk 0 = true → env.mallocOk 1 = true → f true < 0 →
          csInvocations r.events = [true]) ∧
        (st.fd < 0 → csInvocations r.events = []) ∧
        (env.mallocOk 0 = false → csInvocations r.events = []) ∧
        (env.mallocOk 1 = false → csInvocations r.events = [])) ∧
      (∀ (st : HsSpi) (reg : Nat) (wd rd : List Nat) (m n : Nat) (env : SpiEnv)
        (r : SpiRes), st.cs_control_cb = none → m ≠ 0 → n ≠ 0 →
        hs_spi_write_read_data_sub (some st) reg (some wd) m (some rd) n env = some r →
        csInvocations r.events = [] ∧ r.ret ≠ -9)) := by
  refine ⟨⟨?_, ?_⟩, ⟨?_, ?_⟩, ⟨?_, ?_⟩, ⟨?_, ?_⟩, ⟨?_, ?_⟩, ⟨?_, ?_⟩⟩
  · intro st f wd n env r hcb hn h
    have hcs1 : (hs_spi_cs_control st true).1 = f true := by
      simp [hs_spi_cs_control, hcb]
    rcases hs_spi_write_data_shape st wd n env r hn h with
      ⟨hfd, -, hev⟩ | ⟨hfd, hcsf, -, hev⟩ | ⟨hfd, hcsok, evs, rem, ok, -, hinv, -, hev⟩
    · exact ⟨fun hge _ => absurd hfd (not_lt.mpr hge),
        fun hge _ => absurd hfd (not_lt.mpr hge), fun _ => by rw [hev]; rfl⟩
    · rw [hcs1] at hcsf
      exact ⟨fun _ hok => absurd hcsf (not_lt.mpr hok),
        fun _ _ => by rw [hev]; exact csInv_csfail_cb st f hcb,
        fun hlt => absurd hlt (not_lt.mpr hfd)⟩
    · rw [hcs1] at hcsok
      exact ⟨fun _ _ => by rw [hev]; exact csInv_trace_cb st f hcb evs hinv,
        fun _ hlt => absurd hlt (not_lt.mpr hcsok),
        fun hlt => absurd hlt (not_lt.mpr hfd)⟩
  · intro st wd n env r hcb hn h
    have hcs0 : (hs_spi_cs_control st true).1 = 0 := by simp [hs_spi_cs_control, hcb]
    rcases hs_spi_write_data_shape st wd n env r hn h with
      ⟨hfd, hret, hev⟩ | ⟨hfd, hcsf, hret, hev⟩ |
      ⟨hfd, hcsok, evs, rem, ok, -, hinv, hret, hev⟩
    · exact ⟨by rw [hev]; rfl, by rw [hret]; decide⟩
    · rw [hcs0] at hcsf
      exact absurd hcsf (by decide)
    · refine ⟨by rw [hev]; exact csInv_trace_none st hcb evs hinv, ?_⟩
      rcases hret with h0 | h6 | h7
      · rw [h0]; decide
      · rw [h6]; decide
      · rw [h7]; decide
  · intro st f rd n env r hcb hn h
    have hcs1 : (hs_spi_cs_control st true).1 = f true := by
      simp [hs_spi_cs_control, hcb]
    rcases hs_spi_read_data_shape st rd n env r hn h with
      ⟨hfd, -, hev⟩ | ⟨hfd, hcsf, -, hev⟩ |
      ⟨hfd, hcsok, evs, rem, ok, acc, -, hinv, -, hev⟩
    · exact ⟨fun hge _ => absurd hfd (not_lt.mpr hge),
        fun hge _ => absurd hfd (not_lt.mpr hge), fun _ => by rw [hev]; rfl⟩
    · rw [hcs1] at hcsf
      exact ⟨fun _ hok => absurd hcsf (not_lt.mpr hok),
        fun _ _ => by rw [hev]; exact csInv_csfail_cb st f hcb,
        fun hlt => absurd hlt (not_lt.mpr hfd)⟩
    · rw [hcs1] at hcsok
      exact ⟨fun _ _ => by rw [hev]; exact csInv_trace_cb st f hcb evs hinv,
        fun _ hlt => absurd hlt (not_lt.mpr hcsok),
        fun hlt => absurd hlt (not_lt.mpr hfd)⟩
  · intro st rd n env r hcb hn h
    have hcs0 : (hs_spi_cs_control st true).1 = 0 := by simp [hs_spi_cs_control, hcb]
    rcases hs_spi_read_data_shape st rd n env r hn h with
      ⟨hfd, hret, hev⟩ | ⟨hfd, hcsf, hret, hev⟩ |
      ⟨hfd, hcsok, evs, rem, ok, acc, -, hinv, hret, hev⟩
    · exact ⟨by rw [hev]; rfl, by rw [hret]; decide⟩
    · rw [hcs0] at hcsf
      exact absurd hcsf (by decide)
    · refine ⟨by rw [hev]; exact csInv_trace_none st hcb evs hinv, ?_⟩
      rcases hret with h0 | h6 | h7
      · rw [h0]; decide
      · rw [h6]; decide
      · rw [h7]; decide
  · intro st f reg wd n env r hcb hn h
    have hcs1 : (hs_spi_cs_control st true).1 = f true := by
      simp [hs_spi_cs_control, hcb]
    rcases hs_spi_write_data_sub_shape st reg wd n env r hn h with
      ⟨hfd, -, hev⟩ | ⟨hfd, hcsf, -, hev⟩ | ⟨hfd, hcsok, evs, rem, ok, -, hinv, -, hev⟩
    · exact ⟨fun hge _ => absurd hfd (not_lt.mpr hge),
        fun hge _ => absurd hfd (not_lt.mpr hge), fun _ => by rw [hev]; rfl⟩
    · rw [hcs1] at hcsf
      exact ⟨fun _ hok => absurd hcsf (not_lt.mpr hok),
        fun _ _ => by rw [hev]; exact csInv_csfail_cb st f hcb,
        fun hlt => absurd hlt (not_lt.mpr hfd)⟩
    · rw [hcs1] at hcsok
      exact ⟨fun _ _ => by rw [hev]; exact csInv_trace_cb st f hcb evs hinv,
        fun _ hlt => absurd hlt (not_lt.mpr hcsok),
        fun hlt => absurd hlt (not_lt.mpr hfd)⟩
  · intro st reg wd n env r hcb hn h
    have hcs0 : (hs_spi_cs_control st true).1 = 0 := by simp [hs_spi_cs_control, hcb]
    rcases hs_spi_write_data_sub_shape st reg wd n env r hn h with
      ⟨hfd, hret, hev⟩ | ⟨hfd, hcsf, hret, hev⟩ |
      ⟨hfd, hcsok, evs, rem, ok, -, hinv, hret, hev⟩
    · exact ⟨by rw [hev]; rfl, by rw [hret]; decide⟩
    · rw [hcs0] at hcsf
      exact absurd hcsf (by decide)
    · refine ⟨by rw [hev]; exact csInv_trace_none st hcb evs hinv, ?_⟩
      rcases hret with h0 | h6 | h7
      · rw [h0]; decide
      · rw [h6]; decide
      · rw [h7]; decide
  · intro st f reg rd n env r hcb hn h
    have hcs1 : (hs_spi_cs_control st true).1 = f true := by
      simp [hs_spi_cs_control, hcb]
    rcases hs_spi_read_data_sub_shape st reg rd n env r hn h with
      ⟨hfd, -, hev⟩ | ⟨hfd, hcsf, -, hev⟩ |
      ⟨hfd, hcsok, evs, rem, ok, acc, -, hinv, -, hev⟩
    · exact ⟨fun hge _ => absurd hfd (not_lt.mpr hge),
        fun hge _ => absurd hfd (not_lt.mpr hge), fun _ => by rw [hev]; rfl⟩
    · rw [hcs1] at hcsf
      exact ⟨fun _ hok => absurd hcsf (not_lt.mpr hok),
        fun _ _ => by rw [hev]; exact csInv_csfail_cb st f hcb,
        fun hlt => absurd hlt (not_lt.mpr hfd)⟩
    · rw [hcs1] at hcsok
      exact ⟨fun _ _ => by rw [hev]; exact csInv_trace_cb st f hcb evs hinv,
        fun _ hlt => absurd hlt (not_lt.mpr hcsok),
        fun hlt => absurd hlt (not_lt.mpr hfd)⟩
  · intro st reg rd n env r hcb hn h
    have hcs0 : (hs_spi_cs_control st true).1 = 0 := by simp [hs_spi_cs_control, hcb]
    rcases hs_spi_read_data_sub_shape st reg rd n env r hn h with
      ⟨hfd, hret, hev⟩ | ⟨hfd, hcsf, hret, hev⟩ |
      ⟨hfd, hcsok, evs, rem, ok, acc, -, hinv, hret, hev⟩
    · exact ⟨by rw [hev]; rfl, by rw [hret]; decide⟩
    · rw [hcs0] at hcsf
      exact absurd hcsf (by decide)
    · refine ⟨by rw [hev]; exact csInv_trace_none st hcb evs hinv, ?_⟩
      rcases hret with h0 | h6 | h7
      · rw [h0]; decide
      · rw [h6]; decide
      · rw [h7]; decide
  · intro st f wd rd m n env r hcb hm hn h
    have hcs1 : (hs_spi_cs_control st true).1 = f true := by
      simp [hs_spi_cs_control, hcb]
    rcases hs_spi_write_read_data_shape st wd rd m n env r hm hn h with
      ⟨hfd, -, hev⟩ | ⟨hfd, hm0, -, hev⟩ | ⟨hfd, hm0, hm1, -, hev⟩ |
      ⟨hfd, hm0, hm1, hcsf, -, hev⟩ |
      ⟨hfd, hm0, hm1, hcsok, evs, rem, ok, acc, -, hinv, -, hev⟩
    · exact ⟨fun hge _ _ _ => absurd hfd (not_lt.mpr hge),
        fun hge _ _ _ => absurd hfd (not_lt.mpr hge),
        fun _ => by rw [hev]; rfl, fun _ => by rw [hev]; rfl,
        fun _ => by rw [hev]; rfl⟩
    · refine ⟨fun _ hv _ _ => absurd (hm0 ▸ hv) (by decide),
        fun _ hv _ _ => absurd (hm0 ▸ hv) (by decide),
        fun _ => by rw [hev]; rfl, fun _ => by rw [hev]; rfl,
        fun _ => by rw [hev]; rfl⟩
    · refine ⟨fun _ _ hv _ => absurd (hm1 ▸ hv) (by decide),
        fun _ _ hv _ => absurd (hm1 ▸ hv) (by decide),
        fun hlt => absurd hlt (not_lt.mpr hfd),
        fun hv => absurd (hm0 ▸ hv) (by decide),
        fun _ => by rw [hev]; rfl⟩
    · rw [hcs1] at hcsf
      refine ⟨fun _ _ _ hok => absurd hcsf (not_lt.mpr hok),
        fun _ _ _ _ => by rw [hev]; exact csInv_csfail_duplex_cb st f hcb,
        fun hlt => absurd hlt (not_lt.mpr hfd),
        fun hv => absurd (hm0 ▸ hv) (by decide),
        fun hv => absurd (hm1 ▸ hv) (by decide)⟩
    · rw [hcs1] at hcsok
      refine ⟨fun _ _ _ _ => by rw [hev]; exact csInv_trace_duplex_cb st f hcb evs hinv,
        fun _ _ _ hlt => absurd hlt (not_lt.mpr hcsok),
        fun hlt => absurd hlt (not_lt.mpr hfd),
        fun hv => absurd (hm0 ▸ hv) (by decide),
        fun hv => absurd (hm1 ▸ hv) (by decide)⟩
  · intro st wd rd m n env r hcb hm hn h
    have hcs0 : (hs_spi_cs_control st true).1 = 0 := by simp [hs_spi_cs_control, hcb]
    rcases hs_spi_write_read_data_shape st wd rd m n env r hm hn h with
      ⟨hfd, hret, hev⟩ | ⟨hfd, hm0, hret, hev⟩ | ⟨hfd, hm0, hm1, hret, hev⟩ |
      ⟨hfd, hm0, hm1, hcsf, hret, hev⟩ |
      ⟨hfd, hm0, hm1, hcsok, evs, rem, ok, acc, -, hinv, hret, hev⟩
    · exact ⟨by rw [hev]; rfl, by rw [hret]; decide⟩
    · exact ⟨by rw [hev]; rfl, by rw [hret]; decide⟩
    · exact ⟨by rw [hev]; rfl, by rw [hret]; decide⟩
    · rw [hcs0] at hcsf
      exact absurd hcsf (by decide)
    · refine ⟨by rw [hev]; exact csInv_trace_duplex_none st hcb evs hinv, ?_⟩
      rcases hret with h0 | h10 | h11
      · rw [h0]; decide
      · rw [h10]; decide
      · rw [h11]; decide
  · intro st f reg wd rd m n env r hcb hm hn h
    have hcs1 : (hs_spi_cs_control st true).1 = f true := by
      simp [hs_spi_cs_control, hcb]
    rcases hs_spi_write_read_data_sub_shape st reg wd rd m n env r hm hn h with
      ⟨hfd, -, hev⟩ | ⟨hfd, hm0, -, hev⟩ | ⟨hfd, hm0, hm1, -, hev⟩ |
      ⟨hfd, hm0, hm1, hcsf, -, hev⟩ |
      ⟨hfd, hm0, hm1, hcsok, evs, rem, ok, acc, -, hinv, -, hev⟩
    · exact ⟨fun hge _ _ _ => absurd hfd (not_lt.mpr hge),
        fun hge _ _ _ => absurd hfd (not_lt.mpr hge),
        fun _ => by rw [hev]; rfl, fun _ => by rw [hev]; rfl,
        fun _ => by rw [hev]; rfl⟩
    · refine ⟨fun _ hv _ _ => absurd (hm0 ▸ hv) (by decide),
        fun _ hv _ _ => absurd (hm0 ▸ hv) (by decide),
        fun _ => by rw [hev]; rfl, fun _ => by rw [hev]; rfl,
        fun _ => by rw [hev]; rfl⟩
    · refine ⟨fun _ _ hv _ => absurd (hm1 ▸ hv) (by decide),
        fun _ _ hv _ => absurd (hm1 ▸ hv) (by decide),
        fun hlt => absurd hlt (not_lt.mpr hfd),
        fun hv => absurd (hm0 ▸ hv) (by decide),
        fun _ => by rw [hev]; rfl⟩
    · rw [hcs1] at hcsf
      refine ⟨fun _ _ _ hok => absurd hcsf (not_lt.mpr hok),
        fun _ _ _ _ => by rw [hev]; exact csInv_csfail_duplex_cb st f hcb,
        fun hlt => absurd hlt (not_lt.mpr hfd),
        fun hv => absurd (hm0 ▸ hv) (by decide),
        fun hv => absurd (hm1 ▸ hv) (by decide)⟩
    · rw [hcs1] at hcsok
      refine ⟨fun _ _ _ _ => by rw [hev]; exact csInv_trace_duplex_cb st f hcb evs hinv,
        fun _ _ _ hlt => absurd hlt (not_lt.mpr hcsok),
        fun hlt => absurd hlt (not_lt.mpr hfd),
        fun hv => absurd (hm0 ▸ hv) (by decide),
        fun hv => absurd (hm1 ▸ hv) (by decide)⟩
  · intro st reg wd rd m n env r hcb hm hn h
    have hcs0 : (hs_spi_cs_control st true).1 = 0 := by simp [hs_spi_cs_control, hcb]
    rcases hs_spi_write_read_data_sub_shape st reg wd rd m n env r hm hn h with
      ⟨hfd, hret, hev⟩ | ⟨hfd, hm0, hret, hev⟩ | ⟨hfd, hm0, hm1, hret, hev⟩ |
      ⟨hfd, hm0, hm1, hcsf, hret, hev⟩ |
      ⟨hfd, hm0, hm1, hcsok, evs, rem, ok, acc, -, hinv, hret, hev⟩
    · exact ⟨by rw [hev]; rfl, by rw [hret]; decide⟩
    · exact ⟨by rw [hev]; rfl, by rw [hret]; decide⟩
    · exact ⟨by rw [hev]; rfl, by rw [hret]; decide⟩
    · rw [hcs0] at hcsf
      exact absurd hcsf (by decide)
    · refine ⟨by rw [hev]; exact csInv_trace_duplex_none st hcb evs hinv, ?_⟩
      rcases hret with h0 | h10 | h11
      · rw [h0]; decide
      · rw [h10]; decide
      · rw [h11]; decide

/-- Witness for C4 (amended) at a concrete input: a successful write with a
succeeding callback invokes it exactly twice, assert then de-assert. -/
theorem claim_c4_cs_invocations_witness :
    csInvocations ((hs_spi_write_data
        (some { fd := 0, cs_control_cb := some (fun _ => 0), max_transfer_len := 4 })
        (some [1]) 1
        { ioctlRet := fun _ => 0, rxByte := fun _ => 0, mallocOk := fun _ => true }).getD
        default).events = [true, false] :=
  (claim_c4_cs_invocations.1.1
      { fd := 0, cs_control_cb := some (fun _ => 0), max_transfer_len := 4 }
      (fun _ => 0) [1] 1
      { ioctlRet := fun _ => 0, rxByte := fun _ => 0, mallocOk := fun _ => true } _
      rfl (by decide) rfl).1 (by decide) (le_refl 0)

/-- C5 counterexample: in a concrete successful full-duplex transfer with a
configured callback, the first scratch allocation happens at trace index 2
and the chip-select assertion only at index 4 — allocation precedes the
assertion, contradicting the claimed order. -/
theorem claim_c5_counterexample :
    (hs_spi_write_read_data
        (some { fd := 0, cs_control_cb := some (fun _ => 0), max_transfer_len := 4 })
        (some [1, 2]) 2 (some [0, 0]) 2
        { ioctlRet := fun _ => 0, rxByte := fun _ => 0, mallocOk := fun _ => true }).map
      (fun r => (firstIdx isAllocEv r.events, firstIdx isCsAssertEv r.events)) =
      some (some 2, some 4) ∧
    (2 : Nat) < 4 :=
  ⟨rfl, by decide⟩

/-- C5 (amended): in the full-duplex operations, the scratch-buffer
allocations happen before chip-select assertion, not after: in every run
whose trace contains a chip-select assertion at all, the first allocation
event sits at index 2 and the assertion at index 4 (after `lock`, the
descriptor check and both allocations). -/
theorem claim_c5_alloc_before_cs :
    (∀ (st : HsSpi) (wd rd : List Nat) (m n : Nat) (env : SpiEnv) (r : SpiRes),
      m ≠ 0 → n ≠ 0 →
      hs_spi_write_read_data (some st) (some wd) m (some rd) n env = some r →
      firstIdx isCsAssertEv r.events ≠ none →
      firstIdx isAllocEv r.events = some 2 ∧
        firstIdx isCsAssertEv r.events = some 4) ∧
    (∀ (st : HsSpi) (reg : Nat) (wd rd : List Nat) (m n : Nat) (env : SpiEnv)
      (r : SpiRes), m ≠ 0 → n ≠ 0 →
      hs_spi_write_read_data_sub (some st) reg (some wd) m (some rd) n env = some r →
      firstIdx isCsAssertEv r.events ≠ none →
      firstIdx isAllocEv r.events = some 2 ∧
        firstIdx isCsAssertEv r.events = some 4) := by
  constructor
  · intro st wd rd m n env r hm hn h hcs
    rcases hs_spi_write_read_data_shape st wd rd m n env r hm hn h with
      ⟨-, -, hev⟩ | ⟨-, -, -, hev⟩ | ⟨-, -, -, -, hev⟩ | ⟨-, -, -, -, -, hev⟩ |
      ⟨-, -, -, -, evs, rem, ok, acc, -, -, -, hev⟩
    · rw [hev] at hcs
      exact absurd rfl hcs
    · rw [hev] at hcs
      exact absurd rfl hcs
    · rw [hev] at hcs
      exact absurd rfl hcs
    · rw [hev]
      cases hcb : st.cs_control_cb with
      | none => exact ⟨rfl, by simp [firstIdx, firstIdxAux, isAllocEv, isCsAssertEv,
          hs_spi_cs_control, hcb]⟩
      | some f => exact ⟨rfl, by simp [firstIdx, firstIdxAux, isAllocEv, isCsAssertEv,
          hs_spi_cs_control, hcb]⟩
    · rw [hev]
      cases hcb : st.cs_control_cb with
      | none => exact ⟨rfl, by simp [firstIdx, firstIdxAux, isAllocEv, isCsAssertEv,
          hs_spi_cs_control, hcb]⟩
      | some f => exact ⟨rfl, by simp [firstIdx, firstIdxAux, isAllocEv, isCsAssertEv,
          hs_spi_cs_control, hcb]⟩
  · intro st reg wd rd m n env r hm hn h hcs
    rcases hs_spi_write_read_data_sub_shape st reg wd rd m n env r hm hn h with
      ⟨-, -, hev⟩ | ⟨-, -, -, hev⟩ | ⟨-, -, -, -, hev⟩ | ⟨-, -, -, -, -, hev⟩ |
      ⟨-, -, -, -, evs, rem, ok, acc, -, -, -, hev⟩
    · rw [hev] at hcs
      exact absurd rfl hcs
    · rw [hev] at hcs
      exact absurd rfl hcs
    · rw [hev] at hcs
      exact absurd rfl hcs
    · rw [hev]
      cases hcb : st.cs_control_cb with
      | none => exact ⟨rfl, by simp [firstIdx, firstIdxAux, isAllocEv, isCsAssertEv,
          hs_spi_cs_control, hcb]⟩
      | some f => exact ⟨rfl, by simp [firstIdx, firstIdxAux, isAllocEv, isCsAssertEv,
          hs_spi_cs_control, hcb]⟩
    · rw [hev]
      cases hcb : st.cs_control_cb with
      | none => exact ⟨rfl, by simp [firstIdx, firstIdxAux, isAllocEv, isCsAssertEv,
          hs_spi_cs_control, hcb]⟩
      | some f => exact ⟨rfl, by simp [firstIdx, firstIdxAux, isAllocEv, isCsAssertEv,
          hs_spi_cs_control, hcb]⟩

/-- Witness for C5 (amended) at a concrete input. -/
theorem claim_c5_alloc_before_cs_witness :
    firstIdx isAllocEv ((hs_spi_write_read_data
        (some { fd := 0, cs_control_cb := some (fun _ => 0), max_transfer_len := 4 })
        (some [3]) 1 (some [0]) 1
        { ioctlRet := fun _ => 0, rxByte := fun _ => 0, mallocOk := fun _ => true }).getD
        default).events = some 2 ∧
    firstIdx isCsAssertEv ((hs_spi_write_read_data
        (some { fd := 0, cs_control_cb := some (fun _ => 0), max_transfer_len := 4 })
        (some [3]) 1 (some [0]) 1
        { ioctlRet := fun _ => 0, rxByte := fun _ => 0, mallocOk := fun _ => true }).getD
        default).events = some 4 :=
  claim_c5_alloc_before_cs.1
    { fd := 0, cs_control_cb := some (fun _ => 0), max_transfer_len := 4 }
    [3] [0] 1 1
    { ioctlRet := fun _ => 0, rxByte := fun _ => 0, mallocOk := fun _ => true } _
    (by decide) (by decide) rfl (by decide)
